import Mathlib

/-!
Verification development for the automated-sales-reporting ETL pipeline.

The Python pipeline (pipeline/transform.py, pipeline/load.py, pipeline/main.py)
is shallowly embedded: a pandas DataFrame is a `List` of records, columns are
record fields, missing values (NaN/NaT/pd.NA) are `Option.none`, machine floats
are modelled as rationals, and raising an exception is modelled with
`Except`/`Option` results.  Pure logging side effects are modelled only where a
claim is about what gets logged (the per-column parse-failure counts of
`fix_data_types`).
-/

set_option autoImplicit false
set_option maxRecDepth 40000

namespace SalesETL

/-! ### Calendar model

pandas `Timestamp`s are calendar dates (the pipeline only ever uses the date
part).  A `Date` is a plain year/month/day triple; `Date.Valid` captures the
range constraints that every date produced by `pd.to_datetime` satisfies. -/

structure Date where
  year : Nat
  month : Nat
  day : Nat
deriving DecidableEq

/-- Range constraints satisfied by every real calendar date (what
`pd.to_datetime` can produce); enough to make the YYYYMMDD key injective. -/
def Date.Valid (d : Date) : Prop :=
  1 ≤ d.month ∧ d.month ≤ 12 ∧ 1 ≤ d.day ∧ d.day ≤ 31

instance (d : Date) : Decidable d.Valid := by
  unfold Date.Valid; infer_instance

/-- `int(date.strftime('%Y%m%d'))` — the integer date key of `load_dim_date`
and of the date-key columns built in `load_fact_sales`. -/
def dateKey (d : Date) : Nat :=
  d.year * 10000 + d.month * 100 + d.day

/-- Days since 1970-01-01 (proleptic Gregorian), the classic civil-calendar
day count; used to embed pandas `dayofweek` and date subtraction. -/
def daysFromCivil (d : Date) : Int :=
  let y : Int := if d.month ≤ 2 then (d.year : Int) - 1 else (d.year : Int)
  let era : Int := (if 0 ≤ y then y else y - 399) / 400
  let yoe : Int := y - era * 400
  let mp : Int := ((d.month : Int) + 9) % 12
  let doy : Int := (153 * mp + 2) / 5 + (d.day : Int) - 1
  let doe : Int := yoe * 365 + yoe / 4 - yoe / 100 + doy
  era * 146097 + doe - 719468

/-- pandas `Series.dt.dayofweek` / `Timestamp.dayofweek`: Monday = 0 …
Sunday = 6 (1970-01-01 was a Thursday, day-of-week 3). -/
def dayOfWeek (d : Date) : Nat :=
  ((daysFromCivil d + 3) % 7).toNat

theorem dayOfWeek_lt_seven (d : Date) : dayOfWeek d < 7 := by
  unfold dayOfWeek
  have h1 : (0 : Int) ≤ (daysFromCivil d + 3) % 7 :=
    Int.emod_nonneg _ (by decide)
  have h2 : (daysFromCivil d + 3) % 7 < 7 :=
    Int.emod_lt_of_pos _ (by decide)
  omega

def isLeap (y : Nat) : Bool :=
  y % 4 = 0 && (y % 100 ≠ 0 || y % 400 = 0)

def daysInMonth (y m : Nat) : Nat :=
  if m = 2 then (if isLeap y then 29 else 28)
  else if m = 4 ∨ m = 6 ∨ m = 9 ∨ m = 11 then 30
  else 31

def dayOfYear (d : Date) : Nat :=
  (List.range (d.month - 1)).foldl (fun acc i => acc + daysInMonth d.year (i + 1)) 0 + d.day

/-- `date.strftime('%B')`. -/
def monthName (m : Nat) : String :=
  if m = 1 then "January" else if m = 2 then "February" else if m = 3 then "March"
  else if m = 4 then "April" else if m = 5 then "May" else if m = 6 then "June"
  else if m = 7 then "July" else if m = 8 then "August" else if m = 9 then "September"
  else if m = 10 then "October" else if m = 11 then "November" else if m = 12 then "December"
  else ""

/-- `date.strftime('%A')`, indexed by `dayOfWeek` (Monday = 0). -/
def dayName (w : Nat) : String :=
  if w = 0 then "Monday" else if w = 1 then "Tuesday" else if w = 2 then "Wednesday"
  else if w = 3 then "Thursday" else if w = 4 then "Friday" else if w = 5 then "Saturday"
  else if w = 6 then "Sunday" else ""

/-- Helper for the ISO week-count rule. -/
def isoP (y : Nat) : Nat := (y + y / 4 - y / 100 + y / 400) % 7

def isoWeeksInYear (y : Nat) : Nat :=
  if isoP y = 4 ∨ isoP (y - 1) = 3 then 53 else 52

/-- ISO-8601 week number, as computed by `Series.dt.isocalendar().week`. -/
def isoWeek (d : Date) : Nat :=
  let wd := dayOfWeek d + 1
  let w := (10 + dayOfYear d - wd) / 7
  if w < 1 then isoWeeksInYear (d.year - 1)
  else if isoWeeksInYear d.year < w then 1
  else w

def padNat (width n : Nat) : String :=
  let s := toString n
  String.mk (List.replicate (width - s.length) '0') ++ s

/-- `date.strftime('%Y-%m-%d')`. -/
def dateToString (d : Date) : String :=
  padNat 4 d.year ++ "-" ++ padNat 2 d.month ++ "-" ++ padNat 2 d.day

/-! ### Cells and parsing

After `handle_nulls` a datetime column can hold the fill text `'Unknown'`
next to real timestamps (pandas upcasts the column to `object`), so a date
cell is either a date or a text sentinel. -/

inductive DCell where
  | date (d : Date)
  | text (s : String)
deriving DecidableEq

/-- `pd.to_datetime(col, format='%Y-%m-%d', errors='coerce')` on one value:
an unparsable value becomes missing (`NaT`), never an exception. -/
def parseDateYMD (s : String) : Option Date :=
  match s.splitOn "-" with
  | [ys, ms, ds] =>
    match ys.toNat?, ms.toNat?, ds.toNat? with
    | some y, some m, some d =>
      if 1 ≤ m ∧ m ≤ 12 ∧ 1 ≤ d ∧ d ≤ daysInMonth y m then some ⟨y, m, d⟩ else none
    | _, _, _ => none
  | _ => none

/-- `pd.to_numeric(col, errors='coerce')` on one value: a decimal literal with
optional sign and fraction part; anything else coerces to missing. -/
def parseRat (s : String) : Option ℚ :=
  let core := fun (t : String) =>
    match t.splitOn "." with
    | [is] => (is.toNat?).map (fun n => (n : ℚ))
    | [is, fs] =>
      match is.toNat?, fs.toNat? with
      | some n, some f => some ((n : ℚ) + (f : ℚ) / ((10 : ℚ) ^ fs.length))
      | _, _ => none
    | _ => none
  if s.startsWith "-" then (core (s.drop 1)).map (fun q => -q) else core s

/-- `pd.to_numeric(col, errors='coerce').astype('Int64')` on one value.
`astype('Int64')` raises on a non-integral float, so the embedding's domain is
the integral (or unparsable) quantity values the pipeline actually accepts. -/
def parseIntQ (s : String) : Option Int :=
  (parseRat s).bind (fun q => if q.den = 1 then some q.num else none)

theorem parseDateYMD_valid {s : String} {d : Date}
    (h : parseDateYMD s = some d) : d.Valid := by
  unfold parseDateYMD at h
  rcases hsp : s.splitOn "-" with _ | ⟨ys, _ | ⟨ms, _ | ⟨ds, _ | ⟨e, t⟩⟩⟩⟩ <;>
    rw [hsp] at h <;> try simp at h
  rcases hy : ys.toNat? with _ | y <;> rw [hy] at h <;> try simp at h
  rcases hm : ms.toNat? with _ | m <;> rw [hm] at h <;> try simp at h
  rcases hd : ds.toNat? with _ | dd <;> rw [hd] at h <;> try simp at h
  obtain ⟨hcond, heq⟩ := h
  subst heq
  have hle : daysInMonth y m ≤ 31 := by
    unfold daysInMonth
    split <;> [skip; split] <;> simp_all <;> split <;> omega
  exact ⟨hcond.1, hcond.2.1, hcond.2.2.1, le_trans hcond.2.2.2 hle⟩

/-! ### Records

`RawRecord` is one CSV row after `clean_column_names` (all values loose text,
`none` = empty cell); `NRecord` is the row after `fix_data_types`; `ERecord`
adds the derived columns of `add_derived_columns`.  Date columns hold `DCell`s
so that the `'Unknown'` fill of `handle_nulls` is representable. -/

structure RawRecord where
  order_id : Option String
  order_date : Option String
  ship_date : Option String
  ship_mode : Option String
  customer_id : Option String
  customer_name : Option String
  segment : Option String
  country : Option String
  city : Option String
  state : Option String
  postal_code : Option String
  region : Option String
  product_id : Option String
  category : Option String
  sub_category : Option String
  product_name : Option String
  sales : Option String
  quantity : Option String
  discount : Option String
  profit : Option String
deriving DecidableEq

structure NRecord where
  order_id : Option String
  order_date : Option DCell
  ship_date : Option DCell
  ship_mode : Option String
  customer_id : Option String
  customer_name : Option String
  segment : Option String
  country : Option String
  city : Option String
  state : Option String
  postal_code : Option String
  region : Option String
  product_id : Option String
  category : Option String
  sub_category : Option String
  product_name : Option String
  sales : Option ℚ
  quantity : Option Int
  discount : Option ℚ
  profit : Option ℚ
deriving DecidableEq

structure ERecord extends NRecord where
  profit_margin : Option ℚ
  delivery_days : Option Int
  order_year : Option Nat
  order_month : Option Nat
  order_quarter : Option Nat
  order_month_name : Option String
  order_day_name : Option String
  order_week : Option Nat
  is_weekend : Nat
deriving DecidableEq

/-! ### FUNCTION 2: remove_duplicates — `df.drop_duplicates()`

pandas keeps the first occurrence of each duplicated whole row. -/

def dedupByAux {α β : Type} [DecidableEq β] (f : α → β) : List β → List α → List α
  | _, [] => []
  | seen, x :: xs =>
    if f x ∈ seen then dedupByAux f seen xs
    else x :: dedupByAux f (f x :: seen) xs

/-- Deduplicate keeping the first occurrence of each key (`drop_duplicates`,
optionally with `subset=`). -/
def dedupBy {α β : Type} [DecidableEq β] (f : α → β) (l : List α) : List α :=
  dedupByAux f [] l

def remove_duplicates (df : List RawRecord) : List RawRecord :=
  dedupBy id df

/-! ### FUNCTION 3: fix_data_types

Converts the two date columns with `pd.to_datetime(..., errors='coerce')` and
the four numeric columns with `pd.to_numeric(..., errors='coerce')`, then
counts the nulls of the converted `order_date` column and logs that count as a
warning when it is positive.  No other per-column failure count is recorded. -/

def parse_raw (r : RawRecord) : NRecord :=
  { order_id := r.order_id
    order_date := (r.order_date.bind parseDateYMD).map DCell.date
    ship_date := (r.ship_date.bind parseDateYMD).map DCell.date
    ship_mode := r.ship_mode
    customer_id := r.customer_id
    customer_name := r.customer_name
    segment := r.segment
    country := r.country
    city := r.city
    state := r.state
    postal_code := r.postal_code
    region := r.region
    product_id := r.product_id
    category := r.category
    sub_category := r.sub_category
    product_name := r.product_name
    sales := r.sales.bind parseRat
    quantity := r.quantity.bind parseIntQ
    discount := r.discount.bind parseRat
    profit := r.profit.bind parseRat }

/-- Returns the converted rows together with the per-column parse-failure
counts that the function records in the log (only the `order_date` null count,
and only when it is positive). -/
def fix_data_types (df : List RawRecord) : List NRecord × List (String × Nat) :=
  let out := df.map parse_raw
  let date_nulls := out.countP (fun r => r.order_date.isNone)
  (out, if 0 < date_nulls then [("order_date", date_nulls)] else [])

/-! ### FUNCTION 4: add_derived_columns -/

/-- Python/numpy `round` ties to even (banker's rounding). -/
def roundHalfEven (q : ℚ) : Int :=
  let f : Int := ⌊q⌋
  let frac : ℚ := q - (f : ℚ)
  if frac < 1 / 2 then f
  else if 1 / 2 < frac then f + 1
  else if f % 2 = 0 then f else f + 1

/-- `round(x, 2)`. -/
def round2 (q : ℚ) : ℚ := (roundHalfEven (q * 100) : ℚ) / 100

/-- `round(df['profit'] / df['sales'].replace(0, pd.NA) * 100, 2)`:
a zero or missing sales value, or a missing profit, propagates to a missing
margin instead of a division fault. -/
def profitMarginOf (profit sales : Option ℚ) : Option ℚ :=
  match sales with
  | some s => if s = 0 then none else profit.map (fun p => round2 (p / s * 100))
  | none => none

/-- Extract the date of a date cell (`none` for `NaT` and for the
post-`handle_nulls` text sentinel, neither of which occurs before the
Null-Reconciliation stage). -/
def dcellDate : Option DCell → Option Date
  | some (DCell.date d) => some d
  | _ => none

/-- One row of `add_derived_columns`.  Per pandas semantics: `dt.dayofweek
.isin([5, 6]).astype(int)` maps `NaT` to `0`; the other derived columns are
missing when the order date is missing.  `isocalendar().week.astype(int)`
raises on `NaT`, so an in-pipeline run only completes this stage when every
order date parsed; the raise is outside the per-row embedding. -/
def add_derived_columns (r : NRecord) : ERecord :=
  { r with
    profit_margin := profitMarginOf r.profit r.sales
    delivery_days :=
      match dcellDate r.ship_date, dcellDate r.order_date with
      | some sd, some od => some (daysFromCivil sd - daysFromCivil od)
      | _, _ => none
    order_year := (dcellDate r.order_date).map (fun d => d.year)
    order_month := (dcellDate r.order_date).map (fun d => d.month)
    order_quarter := (dcellDate r.order_date).map (fun d => (d.month - 1) / 3 + 1)
    order_month_name := (dcellDate r.order_date).map (fun d => monthName d.month)
    order_day_name := (dcellDate r.order_date).map (fun d => dayName (dayOfWeek d))
    order_week := (dcellDate r.order_date).map isoWeek
    is_weekend :=
      match dcellDate r.order_date with
      | some d => if dayOfWeek d ∈ [5, 6] then 1 else 0
      | none => 0 }

/-! ### FUNCTION 5: handle_nulls

The source iterates over the DataFrame's columns: a column whose dtype is one
of `float64`, `int64`, `Int64` has its nulls filled with `0`, any other column
(object/text and the datetime columns) has them filled with `'Unknown'`.
Two embeddings are given: a column-level one (`handle_nulls`, the direct
translation of the loop) and the equivalent row-level one used by the pipeline
composition (`handle_nulls_rec`). -/

inductive CellValue where
  | num (q : ℚ)
  | text (s : String)
deriving DecidableEq

/-- One DataFrame column: its declared-dtype class (numeric means dtype in
`['float64', 'int64', 'Int64']`) and its cells, `none` being a missing value. -/
structure Column where
  is_numeric : Bool
  cells : List (Option CellValue)
deriving DecidableEq

def fillValue (c : Column) : CellValue :=
  if c.is_numeric then CellValue.num 0 else CellValue.text "Unknown"

/-- `df[col].fillna(0)` / `df[col].fillna('Unknown')` by dtype. -/
def fillna (c : Column) : Column :=
  { c with cells := c.cells.map (fun x => some (x.getD (fillValue c))) }

/-- The per-column loop of `handle_nulls` (a column is only touched when its
null count is positive, which does not change the result). -/
def handle_nulls (df : List Column) : List Column :=
  df.map (fun c => if 0 < c.cells.countP (fun x => x.isNone) then fillna c else c)

/-- Row-level view of `handle_nulls` on the enriched records: numeric-dtype
columns (sales, quantity, discount, profit, profit_margin, delivery_days,
order_year/month/quarter/week) are filled with 0, all other columns with
`'Unknown'` (a missing date becomes the text cell `'Unknown'`). -/
def handle_nulls_rec (r : ERecord) : ERecord :=
  { order_id := some (r.order_id.getD "Unknown")
    order_date := some (r.order_date.getD (DCell.text "Unknown"))
    ship_date := some (r.ship_date.getD (DCell.text "Unknown"))
    ship_mode := some (r.ship_mode.getD "Unknown")
    customer_id := some (r.customer_id.getD "Unknown")
    customer_name := some (r.customer_name.getD "Unknown")
    segment := some (r.segment.getD "Unknown")
    country := some (r.country.getD "Unknown")
    city := some (r.city.getD "Unknown")
    state := some (r.state.getD "Unknown")
    postal_code := some (r.postal_code.getD "Unknown")
    region := some (r.region.getD "Unknown")
    product_id := some (r.product_id.getD "Unknown")
    category := some (r.category.getD "Unknown")
    sub_category := some (r.sub_category.getD "Unknown")
    product_name := some (r.product_name.getD "Unknown")
    sales := some (r.sales.getD 0)
    quantity := some (r.quantity.getD 0)
    discount := some (r.discount.getD 0)
    profit := some (r.profit.getD 0)
    profit_margin := some (r.profit_margin.getD 0)
    delivery_days := some (r.delivery_days.getD 0)
    order_year := some (r.order_year.getD 0)
    order_month := some (r.order_month.getD 0)
    order_quarter := some (r.order_quarter.getD 0)
    order_month_name := some (r.order_month_name.getD "Unknown")
    order_day_name := some (r.order_day_name.getD "Unknown")
    order_week := some (r.order_week.getD 0)
    is_weekend := r.is_weekend }

/-! ### FUNCTION 6: validate_data -/

/-- The null counts of the seven critical columns, in source order. -/
def critical_null_counts (df : List ERecord) : List (String × Nat) :=
  [("order_id", df.countP (fun r => r.order_id.isNone)),
   ("order_date", df.countP (fun r => r.order_date.isNone)),
   ("customer_id", df.countP (fun r => r.customer_id.isNone)),
   ("product_id", df.countP (fun r => r.product_id.isNone)),
   ("sales", df.countP (fun r => r.sales.isNone)),
   ("quantity", df.countP (fun r => r.quantity.isNone)),
   ("profit", df.countP (fun r => r.profit.isNone))]

def neg_qty_count (df : List ERecord) : Nat :=
  df.countP (fun r => r.quantity.any (fun q => decide (q < 0)))

def neg_sales_count (df : List ERecord) : Nat :=
  df.countP (fun r => r.sales.any (fun s => decide (s < 0)))

def bad_discount_count (df : List ERecord) : Nat :=
  df.countP (fun r => r.discount.any (fun x => decide (x < 0) || decide (1 < x)))

/-- Count of rows with negative delivery days — logged as a warning only;
it contributes no entry to the aggregated error list. -/
def neg_delivery_count (df : List ERecord) : Nat :=
  df.countP (fun r => r.delivery_days.any (fun x => decide (x < 0)))

/-- The aggregated violation messages, in the order the source appends them
(critical-column nulls, negative quantity, negative sales, invalid discount;
the delivery-days check at position four only logs). -/
def validation_errors (df : List ERecord) : List String :=
  (critical_null_counts df).filterMap
    (fun p => if 0 < p.2 then
        some ("Critical column " ++ p.1 ++ " has " ++ toString p.2 ++ " null values")
      else none)
  ++ (if 0 < neg_qty_count df then
        [toString (neg_qty_count df) ++ " rows have negative quantity"] else [])
  ++ (if 0 < neg_sales_count df then
        [toString (neg_sales_count df) ++ " rows have negative sales"] else [])
  ++ (if 0 < bad_discount_count df then
        [toString (bad_discount_count df) ++ " rows have invalid discount values"] else [])

/-- `validate_data`: raises one `ValueError` carrying all aggregated messages
when any fatal check failed, otherwise returns `True`. -/
def validate_data (df : List ERecord) : Except (List String) Bool :=
  if validation_errors df = [] then Except.ok true
  else Except.error (validation_errors df)

/-! ### MAIN FUNCTION: transform_data

`clean_column_names` only renames columns, which the record embedding already
reflects in its field names; the CSV snapshot write is I/O with no effect on
the returned batch. -/

def transform_data (raw : List RawRecord) : Except (List String) (List ERecord) :=
  let df1 := remove_duplicates raw
  let df2 := (fix_data_types df1).1
  let df3 := df2.map add_derived_columns
  let df4 := df3.map handle_nulls_rec
  match validate_data df4 with
  | Except.error e => Except.error e
  | Except.ok _ => Except.ok df4

/-! ### Load phase (pipeline/load.py)

The SQLite target is modelled as six in-memory tables.  `create_schema`
drops and recreates every table, so each load starts from `DB.empty`.
AUTOINCREMENT surrogate keys are the 1-based insertion positions.
A pandas operation that raises (`.dt` accessors / `strftime` / `astype(int)`
on a column holding the `'Unknown'` sentinel or `NaT`) is modelled by an
`Option`/`Except` failure of the corresponding load step. -/

/-- `mapM` over `Option`, written out so its equations are plain. -/
def optMap {α β : Type} (f : α → Option β) : List α → Option (List β)
  | [] => some []
  | x :: xs =>
    match f x, optMap f xs with
    | some y, some ys => some (y :: ys)
    | _, _ => none

/-- Surrogate-key assignment: tag the rows with consecutive integers starting
at `n` (SQLite AUTOINCREMENT starts at 1, in insertion order). -/
def withKeysFrom {α : Type} (n : Nat) : List α → List (Nat × α)
  | [] => []
  | x :: xs => (n, x) :: withKeysFrom (n + 1) xs

/-- `left.merge(right, on=key, how='left')`: every left row is kept; a left
row with no key match yields one output row with a missing right side, a left
row with matches yields one output row per match. -/
def leftJoin {α β γ K : Type} [DecidableEq K]
    (l : List α) (r : List β) (ka : α → K) (kb : β → K)
    (mk : α → Option β → γ) : List γ :=
  l.flatMap (fun x =>
    match r.filter (fun y => kb y = ka x) with
    | [] => [mk x none]
    | ys => ys.map (fun y => mk x (some y)))

structure StagingRow where
  order_id : Option String
  order_date : String
  ship_date : String
  ship_mode : Option String
  customer_id : Option String
  customer_name : Option String
  segment : Option String
  country : Option String
  city : Option String
  state : Option String
  postal_code : Option String
  region : Option String
  product_id : Option String
  category : Option String
  sub_category : Option String
  product_name : Option String
  sales : Option ℚ
  quantity : Option Int
  discount : Option ℚ
  profit : Option ℚ
deriving DecidableEq

structure DateDimRow where
  date_key : Nat
  full_date : String
  year : Nat
  quarter : Nat
  month : Nat
  month_name : String
  day : Nat
  day_of_week : Nat
  day_name : String
  week_of_year : Nat
  is_weekend : Nat
deriving DecidableEq

structure CustomerDimRow where
  customer_key : Nat
  customer_id : Option String
  customer_name : Option String
  segment : Option String
  country : Option String
  city : Option String
  state : Option String
  postal_code : Option String
  region : Option String
  first_order_date : Option String
  last_order_date : Option String
deriving DecidableEq

structure ProductDimRow where
  product_key : Nat
  product_id : Option String
  product_name : Option String
  category : Option String
  sub_category : Option String
deriving DecidableEq

structure ShippingDimRow where
  shipping_key : Nat
  ship_mode : Option String
deriving DecidableEq

structure FactRow where
  order_id : Option String
  order_date_key : Nat
  ship_date_key : Nat
  customer_key : Option Nat
  product_key : Option Nat
  shipping_key : Option Nat
  quantity : Option Int
  sales_amount : Option ℚ
  discount : Option ℚ
  profit : Option ℚ
deriving DecidableEq

structure DB where
  staging_raw_sales : List StagingRow
  dim_date : List DateDimRow
  dim_customer : List CustomerDimRow
  dim_product : List ProductDimRow
  dim_shipping : List ShippingDimRow
  fact_sales : List FactRow
deriving DecidableEq

/-- The state `create_schema` leaves behind: all six tables dropped and
recreated empty. -/
def DB.empty : DB := ⟨[], [], [], [], [], []⟩

/-! ### FUNCTION 3: load_staging -/

/-- `col.dt.strftime('%Y-%m-%d')` on one cell; fails on the text sentinel
(the `.dt` accessor raises once `handle_nulls` upcast the column to object)
and on a missing date. -/
def dcellToString : Option DCell → Option String
  | some (DCell.date d) => some (dateToString d)
  | _ => none

def stagingRowOf (r : ERecord) : Option StagingRow :=
  match dcellToString r.order_date, dcellToString r.ship_date with
  | some od, some sd =>
    some
      { order_id := r.order_id, order_date := od, ship_date := sd
        ship_mode := r.ship_mode, customer_id := r.customer_id
        customer_name := r.customer_name, segment := r.segment
        country := r.country, city := r.city, state := r.state
        postal_code := r.postal_code, region := r.region
        product_id := r.product_id, category := r.category
        sub_category := r.sub_category, product_name := r.product_name
        sales := r.sales, quantity := r.quantity
        discount := r.discount, profit := r.profit }
  | _, _ => none

def load_staging (df : List ERecord) : Option (List StagingRow) :=
  optMap stagingRowOf df

/-! ### FUNCTION 4: load_dim_date -/

/-- Chronological order on calendar dates compared through the integer key
(for valid dates this is exactly the year/month/day lexicographic order that
sorting pandas `Timestamp`s uses). -/
def dateLe (a b : Date) : Prop := dateKey a ≤ dateKey b

instance : DecidableRel dateLe := fun a b => by unfold dateLe; infer_instance

instance : IsTotal Date dateLe := ⟨fun a b => Nat.le_total (dateKey a) (dateKey b)⟩

instance : IsTrans Date dateLe := ⟨fun _ _ _ h1 h2 => Nat.le_trans h1 h2⟩

/-- `sorted(all_dates)`. -/
def sortDates (l : List Date) : List Date := List.insertionSort dateLe l

/-- A non-null date cell as a date; fails on the `'Unknown'` sentinel, on
which the `pd.to_datetime` call of `load_dim_date` raises. -/
def dcellAsDate : DCell → Option Date
  | DCell.date d => some d
  | DCell.text _ => none

/-- The deduplicated, ascending list of all dates appearing as an order date
or a ship date (`dropna`, `concat`, `unique`, `sorted`). -/
def allDates (df : List ERecord) : Option (List Date) :=
  match optMap dcellAsDate ((df.map (fun r => r.order_date)).filterMap id),
    optMap dcellAsDate ((df.map (fun r => r.ship_date)).filterMap id) with
  | some order_dates, some ship_dates =>
    some (sortDates (dedupBy id (order_dates ++ ship_dates)))
  | _, _ => none

def dateDimRowOf (d : Date) : DateDimRow :=
  { date_key := dateKey d
    full_date := dateToString d
    year := d.year
    quarter := (d.month - 1) / 3 + 1
    month := d.month
    month_name := monthName d.month
    day := d.day
    day_of_week := dayOfWeek d
    day_name := dayName (dayOfWeek d)
    week_of_year := isoWeek d
    is_weekend := if 5 ≤ dayOfWeek d then 1 else 0 }

def load_dim_date (df : List ERecord) : Option (List DateDimRow) :=
  (allDates df).map (fun dates => dates.map dateDimRowOf)

/-! ### FUNCTION 5: load_dim_customer -/

/-- Earlier of two dates in calendar order. -/
def minDate (a b : Date) : Date := if dateKey b < dateKey a then b else a

/-- Later of two dates in calendar order. -/
def maxDate (a b : Date) : Date := if dateKey a < dateKey b then b else a

def foldMinDate (l : List Date) : Option Date :=
  l.foldl (fun acc d => some (minDate (acc.getD d) d)) none

def foldMaxDate (l : List Date) : Option Date :=
  l.foldl (fun acc d => some (maxDate (acc.getD d) d)) none

/-- `groupby('customer_id').agg(min/max order_date)` followed by
`strftime('%Y-%m-%d')` for one customer.  The groupby compares the customer's
order dates, which raises on a column upcast to object by a fill; the
embedding therefore requires every order-date cell to be a real date. -/
def customerFirstLast (dated : List (Option String × Date)) (cid : Option String) :
    Option String × Option String :=
  let ds := (dated.filter (fun p => p.1 = cid)).map (fun p => p.2)
  ((foldMinDate ds).map dateToString, (foldMaxDate ds).map dateToString)

def customerDimRowOf (dated : List (Option String × Date)) (p : Nat × ERecord) :
    CustomerDimRow :=
  { customer_key := p.1
    customer_id := p.2.customer_id
    customer_name := p.2.customer_name
    segment := p.2.segment
    country := p.2.country
    city := p.2.city
    state := p.2.state
    postal_code := p.2.postal_code
    region := p.2.region
    first_order_date := (customerFirstLast dated p.2.customer_id).1
    last_order_date := (customerFirstLast dated p.2.customer_id).2 }

/-- `drop_duplicates(subset=['customer_id'])` (first occurrence's attributes
win) merged with the per-customer first/last order date, keys assigned in
insertion order. -/
def load_dim_customer (df : List ERecord) : Option (List CustomerDimRow) :=
  match optMap
    (fun r => ((r.order_date.bind dcellAsDate).map (fun d => (r.customer_id, d)))) df with
  | some dated =>
    some ((withKeysFrom 1 (dedupBy (fun r => r.customer_id) df)).map
      (customerDimRowOf dated))
  | none => none

/-! ### FUNCTION 6: load_dim_product -/

def load_dim_product (df : List ERecord) : List ProductDimRow :=
  (withKeysFrom 1 (dedupBy (fun r => r.product_id) df)).map
    (fun p =>
      { product_key := p.1
        product_id := p.2.product_id
        product_name := p.2.product_name
        category := p.2.category
        sub_category := p.2.sub_category })

/-! ### FUNCTION 7: load_dim_shipping -/

def load_dim_shipping (df : List ERecord) : List ShippingDimRow :=
  (withKeysFrom 1 (dedupBy (fun r => r.ship_mode) df)).map
    (fun p => { shipping_key := p.1, ship_mode := p.2.ship_mode })

/-! ### FUNCTION 8: load_fact_sales -/

/-- `pd.to_datetime(col).dt.strftime('%Y%m%d').astype(int)` on one cell. -/
def dcellToKey : Option DCell → Option Nat
  | some (DCell.date d) => some (dateKey d)
  | _ => none

/-- The date-key column construction of `load_fact_sales`: one row tagged
with its `order_date_key` and `ship_date_key`; fails when a date cell is not
a real date (the `strftime`/`astype(int)` chain raises). -/
def keyRow (r : ERecord) : Option (ERecord × Nat × Nat) :=
  match dcellToKey r.order_date, dcellToKey r.ship_date with
  | some ok, some sk => some (r, ok, sk)
  | _, _ => none

/-- `fact = df.merge(customers, on='customer_id', how='left')`. -/
def factJoin1 (keyed : List (ERecord × Nat × Nat))
    (customers : List CustomerDimRow) :
    List ((ERecord × Nat × Nat) × Option Nat) :=
  leftJoin keyed customers (fun x => x.1.customer_id)
    (fun c => c.customer_id) (fun x c => (x, c.map (fun y => y.customer_key)))

/-- `fact = fact.merge(products, on='product_id', how='left')`. -/
def factJoin2 (f1 : List ((ERecord × Nat × Nat) × Option Nat))
    (products : List ProductDimRow) :
    List (((ERecord × Nat × Nat) × Option Nat) × Option Nat) :=
  leftJoin f1 products (fun x => x.1.1.product_id)
    (fun p => p.product_id) (fun x p => (x, p.map (fun y => y.product_key)))

/-- `fact = fact.merge(shipping, on='ship_mode', how='left')`. -/
def factJoin3 (f2 : List (((ERecord × Nat × Nat) × Option Nat) × Option Nat))
    (shipping : List ShippingDimRow) :
    List ((((ERecord × Nat × Nat) × Option Nat) × Option Nat) × Option Nat) :=
  leftJoin f2 shipping (fun x => x.1.1.1.ship_mode)
    (fun s => s.ship_mode) (fun x s => (x, s.map (fun y => y.shipping_key)))

/-- The projection to the fact-table column set. -/
def factProject
    (z : (((ERecord × Nat × Nat) × Option Nat) × Option Nat) × Option Nat) :
    FactRow :=
  { order_id := z.1.1.1.1.order_id
    order_date_key := z.1.1.1.2.1
    ship_date_key := z.1.1.1.2.2
    customer_key := z.1.1.2
    product_key := z.1.2
    shipping_key := z.2
    quantity := z.1.1.1.1.quantity
    sales_amount := z.1.1.1.1.sales
    discount := z.1.1.1.1.discount
    profit := z.1.1.1.1.profit }

def load_fact_sales (df : List ERecord) (customers : List CustomerDimRow)
    (products : List ProductDimRow) (shipping : List ShippingDimRow) :
    Option (List FactRow) :=
  match optMap keyRow df with
  | some keyed =>
    some ((factJoin3 (factJoin2 (factJoin1 keyed customers) products)
      shipping).map factProject)
  | none => none

/-! ### FUNCTION 9: validate_load -/

structure LoadCounts where
  staging_raw_sales : Nat
  dim_date : Nat
  dim_customer : Nat
  dim_product : Nat
  dim_shipping : Nat
  fact_sales : Nat
deriving DecidableEq

def countsOf (db : DB) : LoadCounts :=
  { staging_raw_sales := db.staging_raw_sales.length
    dim_date := db.dim_date.length
    dim_customer := db.dim_customer.length
    dim_product := db.dim_product.length
    dim_shipping := db.dim_shipping.length
    fact_sales := db.fact_sales.length }

/-- The Load Reconciler: counts every table, then compares the fact-table
count with the source row count.  On mismatch it reports both counts (the
`logger.error` message names `source_rows` and `counts['fact_sales']`, carried
here as the error payload `(source, fact)`) and raises; on equality it
returns the per-table counts. -/
def validate_load (counts : LoadCounts) (source_rows : Nat) :
    Except (Nat × Nat) LoadCounts :=
  if counts.fact_sales ≠ source_rows then
    Except.error (source_rows, counts.fact_sales)
  else
    Except.ok counts

/-! ### MAIN FUNCTION: load_data -/

inductive LoadError where
  /-- A pandas date conversion (`.dt` accessor, `strftime`, `astype(int)`,
  `to_datetime`, or the date `groupby` aggregation) raised on a column holding
  a missing date or the `'Unknown'` sentinel. -/
  | dateCast
  /-- `validate_load` raised: source row count vs fact row count. -/
  | reconcile (source fact : Nat)
deriving DecidableEq

/-- Orchestrates the load steps in source order, threading the database state
so that the tables already written when a later step aborts remain visible
(there is no rollback).  `validate_load` is called with `len(df)`, the number
of records that passed `validate_data`. -/
def load_data (df : List ERecord) : DB × Except LoadError LoadCounts :=
  let db0 := DB.empty
  match load_staging df with
  | none => (db0, Except.error LoadError.dateCast)
  | some staging =>
    let db1 := { db0 with staging_raw_sales := staging }
    match load_dim_date df with
    | none => (db1, Except.error LoadError.dateCast)
    | some dim_date =>
      let db2 := { db1 with dim_date := dim_date }
      match load_dim_customer df with
      | none => (db2, Except.error LoadError.dateCast)
      | some dim_customer =>
        let db3 := { db2 with dim_customer := dim_customer }
        let db4 := { db3 with dim_product := load_dim_product df }
        let db5 := { db4 with dim_shipping := load_dim_shipping df }
        match load_fact_sales df dim_customer (load_dim_product df)
          (load_dim_shipping df) with
        | none => (db5, Except.error LoadError.dateCast)
        | some facts =>
          let db6 := { db5 with fact_sales := facts }
          match validate_load (countsOf db6) df.length with
          | Except.error p => (db6, Except.error (LoadError.reconcile p.1 p.2))
          | Except.ok counts => (db6, Except.ok counts)

instance {ε α : Type} [DecidableEq ε] [DecidableEq α] : DecidableEq (Except ε α) :=
  fun a b =>
    match a, b with
    | Except.ok x, Except.ok y =>
      if h : x = y then isTrue (by rw [h]) else isFalse (by simp [h])
    | Except.error x, Except.error y =>
      if h : x = y then isTrue (by rw [h]) else isFalse (by simp [h])
    | Except.ok _, Except.error _ => isFalse (by simp)
    | Except.error _, Except.ok _ => isFalse (by simp)

/-! ### run_pipeline (pipeline/main.py)

Extraction is file I/O; the pipeline is modelled from the raw batch on.
A `ValueError` from `validate_data` (inside `transform_data`) propagates and
aborts before `load_data` is ever called, so on that path the returned
database state is the untouched one. -/

inductive PipeError where
  | validation (msgs : List String)
  | load (e : LoadError)
deriving DecidableEq

def run_pipeline (raw : List RawRecord) : DB × Except PipeError LoadCounts :=
  match transform_data raw with
  | Except.error msgs => (DB.empty, Except.error (PipeError.validation msgs))
  | Except.ok df =>
    match load_data df with
    | (db, Except.error e) => (db, Except.error (PipeError.load e))
    | (db, Except.ok counts) => (db, Except.ok counts)

/-! ### Validity of the dates carried by a record -/

def DCellValid : Option DCell → Prop
  | some (DCell.date d) => d.Valid
  | _ => True

instance : ∀ c, Decidable (DCellValid c)
  | some (DCell.date _) => by unfold DCellValid; infer_instance
  | some (DCell.text _) => by unfold DCellValid; infer_instance
  | none => by unfold DCellValid; infer_instance

/-- Every date cell of the record holds a real calendar date (which is the
case for every record produced by `fix_data_types`). -/
def ERecord.DatesValid (r : ERecord) : Prop :=
  DCellValid r.order_date ∧ DCellValid r.ship_date

instance (r : ERecord) : Decidable r.DatesValid := by
  unfold ERecord.DatesValid; infer_instance

/-! ### Sample batches used by the witness theorems -/

def sampleRaw1 : RawRecord :=
  { order_id := some "O1", order_date := some "2019-01-03"
    ship_date := some "2019-01-05", ship_mode := some "Standard Class"
    customer_id := some "C1", customer_name := some "Alice"
    segment := some "Consumer", country := some "United States"
    city := some "Seattle", state := some "Washington"
    postal_code := some "98101", region := some "West"
    product_id := some "P1", category := some "Furniture"
    sub_category := some "Chairs", product_name := some "Desk Chair"
    sales := some "100", quantity := some "2"
    discount := some "0", profit := some "20" }

def sampleRaw2 : RawRecord :=
  { sampleRaw1 with order_id := some "O2", product_id := some "P2"
                    order_date := some "2019-01-04" }

def sampleRaw3 : RawRecord :=
  { sampleRaw1 with order_id := some "O3", customer_id := some "C2"
                    ship_mode := some "Second Class" }

/-- A row whose discount parses to 1.5, outside `[0, 1]`. -/
def badDiscountRaw : RawRecord := { sampleRaw1 with discount := some "1.5" }

/-- A row whose ship date and sales fail to parse. -/
def badParseRaw : RawRecord :=
  { sampleRaw1 with ship_date := some "not-a-date", sales := some "abc" }

/-- A row whose order date fails to parse. -/
def badOrderDateRaw : RawRecord :=
  { sampleRaw1 with order_date := some "garbage" }

/-- The transformed batch of `[sampleRaw1, sampleRaw2, sampleRaw3]`. -/
def sampleDf : List ERecord :=
  (transform_data [sampleRaw1, sampleRaw2, sampleRaw3]).toOption.getD []

def sampleColumns : List Column :=
  [⟨true, [some (CellValue.num 1), none]⟩, ⟨false, [none]⟩]

/-- A row of the enriched batch violates one of the Row Validator's fatal
checks: a missing value in a critical column (order id, order date, customer
id, product id, sales, quantity, profit), a negative quantity, negative
sales, or a discount outside `[0, 1]`.  (A negative `delivery_days` is
deliberately not among these.) -/
def fatalRowViolation (r : ERecord) : Prop :=
  r.order_id = none ∨ r.order_date = none ∨ r.customer_id = none ∨
  r.product_id = none ∨ r.sales = none ∨ r.quantity = none ∨ r.profit = none ∨
  r.quantity.any (fun q => decide (q < 0)) = true ∨
  r.sales.any (fun s => decide (s < 0)) = true ∨
  r.discount.any (fun x => decide (x < 0) || decide (1 < x)) = true

/-! ## Helper lemmas -/

section Lemmas

variable {α β γ K : Type}

theorem mem_of_mem_dedupByAux [DecidableEq β] {f : α → β} :
    ∀ {seen : List β} {l : List α} {a : α}, a ∈ dedupByAux f seen l → a ∈ l := by
  intro seen l
  induction l generalizing seen with
  | nil => intro a h; exact absurd h (by simp [dedupByAux])
  | cons x xs ih =>
    intro a h
    unfold dedupByAux at h
    by_cases hx : f x ∈ seen
    · rw [if_pos hx] at h
      exact List.mem_cons_of_mem x (ih h)
    · rw [if_neg hx] at h
      rcases List.mem_cons.mp h with h1 | h2
      · exact h1 ▸ List.mem_cons_self x xs
      · exact List.mem_cons_of_mem x (ih h2)

theorem dedupByAux_keys_nodup [DecidableEq β] {f : α → β} :
    ∀ {seen : List β} {l : List α},
      ((dedupByAux f seen l).map f).Nodup ∧ ∀ b ∈ dedupByAux f seen l, f b ∉ seen := by
  intro seen l
  induction l generalizing seen with
  | nil => simp [dedupByAux]
  | cons x xs ih =>
    unfold dedupByAux
    by_cases hx : f x ∈ seen
    · rw [if_pos hx]; exact ih
    · rw [if_neg hx]
      obtain ⟨hnd, hseen⟩ := @ih (f x :: seen)
      refine ⟨?_, ?_⟩
      · simp only [List.map_cons, List.nodup_cons]
        refine ⟨?_, hnd⟩
        intro hmem
        obtain ⟨b, hb, hfb⟩ := List.mem_map.mp hmem
        exact (hseen b hb) (hfb ▸ List.mem_cons_self _ _)
      · intro b hb
        rcases List.mem_cons.mp hb with h1 | h2
        · exact h1 ▸ hx
        · intro hmem
          exact (hseen b h2) (List.mem_cons_of_mem _ hmem)

theorem dedupBy_keys_nodup [DecidableEq β] (f : α → β) (l : List α) :
    ((dedupBy f l).map f).Nodup :=
  (@dedupByAux_keys_nodup α β _ f [] l).1

theorem exists_key_mem_dedupByAux [DecidableEq β] {f : α → β} :
    ∀ {seen : List β} {l : List α} {a : α}, a ∈ l → f a ∉ seen →
      ∃ b ∈ dedupByAux f seen l, f b = f a := by
  intro seen l
  induction l generalizing seen with
  | nil => intro a h; exact absurd h (by simp)
  | cons x xs ih =>
    intro a ha hseen
    unfold dedupByAux
    rcases List.mem_cons.mp ha with h1 | h2
    · subst h1
      by_cases hx : f a ∈ seen
      · exact absurd hx hseen
      · rw [if_neg hx]
        exact ⟨a, List.mem_cons_self _ _, rfl⟩
    · by_cases hx : f x ∈ seen
      · rw [if_pos hx]; exact ih h2 hseen
      · rw [if_neg hx]
        by_cases hfa : f a = f x
        · exact ⟨x, List.mem_cons_self _ _, hfa.symm⟩
        · obtain ⟨b, hb, hfb⟩ := ih h2 (by
            intro hmem
            rcases List.mem_cons.mp hmem with hc | hc
            · exact hfa hc
            · exact hseen hc)
          exact ⟨b, List.mem_cons_of_mem _ hb, hfb⟩

theorem exists_key_mem_dedupBy [DecidableEq β] {f : α → β} {l : List α} {a : α}
    (ha : a ∈ l) : ∃ b ∈ dedupBy f l, f b = f a :=
  exists_key_mem_dedupByAux ha (by simp)

theorem dedupByAux_eq_self [DecidableEq β] {f : α → β} :
    ∀ {seen : List β} {l : List α}, (∀ a ∈ l, f a ∉ seen) → (l.map f).Nodup →
      dedupByAux f seen l = l := by
  intro seen l
  induction l generalizing seen with
  | nil => intro _ _; rfl
  | cons x xs ih =>
    intro hseen hnd
    unfold dedupByAux
    rw [if_neg (hseen x (List.mem_cons_self _ _))]
    simp only [List.map_cons, List.nodup_cons] at hnd
    refine congrArg (List.cons x) (ih ?_ hnd.2)
    intro a ha hmem
    rcases List.mem_cons.mp hmem with h1 | h2
    · exact hnd.1 (h1 ▸ List.mem_map_of_mem f ha)
    · exact hseen a (List.mem_cons_of_mem _ ha) h2

theorem dedupBy_id_nodup [DecidableEq α] (l : List α) : (dedupBy id l).Nodup := by
  have h := dedupBy_keys_nodup id l
  simpa using h

theorem mem_dedupBy_id_iff [DecidableEq α] {l : List α} {a : α} :
    a ∈ dedupBy id l ↔ a ∈ l := by
  constructor
  · exact mem_of_mem_dedupByAux
  · intro ha
    obtain ⟨b, hb, hfb⟩ := @exists_key_mem_dedupBy α α _ id l a ha
    simpa [show b = a from hfb] using hb

theorem dedupBy_id_eq_self [DecidableEq α] {l : List α} (h : l.Nodup) :
    dedupBy id l = l :=
  dedupByAux_eq_self (by simp) (by simpa using h)

theorem withKeysFrom_map_snd (n : Nat) (l : List α) :
    (withKeysFrom n l).map Prod.snd = l := by
  induction l generalizing n with
  | nil => rfl
  | cons x xs ih => simp [withKeysFrom, ih]

theorem withKeysFrom_length (n : Nat) (l : List α) :
    (withKeysFrom n l).length = l.length := by
  induction l generalizing n with
  | nil => rfl
  | cons x xs ih => simp [withKeysFrom, ih]

theorem withKeysFrom_fst_ge (n : Nat) (l : List α) :
    ∀ p ∈ withKeysFrom n l, n ≤ p.1 := by
  induction l generalizing n with
  | nil => intro p h; exact absurd h (by simp [withKeysFrom])
  | cons x xs ih =>
    intro p hp
    rcases List.mem_cons.mp hp with h1 | h2
    · simp [h1]
    · exact Nat.le_of_succ_le (ih (n + 1) p h2)

theorem withKeysFrom_keys_nodup (n : Nat) (l : List α) :
    ((withKeysFrom n l).map Prod.fst).Nodup := by
  induction l generalizing n with
  | nil => simp [withKeysFrom]
  | cons x xs ih =>
    simp only [withKeysFrom, List.map_cons, List.nodup_cons]
    refine ⟨?_, ih (n + 1)⟩
    intro hmem
    obtain ⟨p, hp, hfp⟩ := List.mem_map.mp hmem
    have := withKeysFrom_fst_ge (n + 1) xs p hp
    omega

theorem filter_key_length_le_one [DecidableEq K] {kb : β → K} {r : List β}
    (hnd : (r.map kb).Nodup) (k : K) :
    (r.filter (fun y => kb y = k)).length ≤ 1 := by
  induction r with
  | nil => simp
  | cons y ys ih =>
    simp only [List.map_cons, List.nodup_cons] at hnd
    by_cases hy : kb y = k
    · rw [List.filter_cons_of_pos (by simpa using hy)]
      have hnil : ys.filter (fun z => kb z = k) = [] := by
        rw [List.filter_eq_nil_iff]
        intro z hz
        simp only [decide_eq_true_eq]
        intro hzk
        exact hnd.1 (by rw [← hy] at hzk; exact hzk ▸ List.mem_map_of_mem kb hz)
      simp [hnil]
    · rw [List.filter_cons_of_neg (by simpa using hy)]
      exact ih hnd.2

theorem filter_key_length_eq_one [DecidableEq K] {kb : β → K} {r : List β}
    (hnd : (r.map kb).Nodup) {k : K} (hk : k ∈ r.map kb) :
    (r.filter (fun y => kb y = k)).length = 1 := by
  have hle := filter_key_length_le_one hnd k
  obtain ⟨y, hy, hky⟩ := List.mem_map.mp hk
  have hmem : y ∈ r.filter (fun z => kb z = k) :=
    List.mem_filter_of_mem hy (by simpa using hky)
  have hpos : 0 < (r.filter (fun z => kb z = k)).length :=
    List.length_pos_of_mem hmem
  omega

theorem head?_filter_spec {p : β → Bool} {r : List β} {y : β}
    (h : (r.filter p).head? = some y) : y ∈ r ∧ p y = true := by
  have hmem : y ∈ r.filter p := by
    cases hf : r.filter p with
    | nil => rw [hf] at h; exact absurd h (by simp)
    | cons a t =>
      rw [hf] at h
      simp only [List.head?_cons, Option.some.injEq] at h
      subst h
      exact List.mem_cons_self a t
  exact ⟨List.mem_of_mem_filter hmem, (List.mem_filter.mp hmem).2⟩

theorem leftJoin_length [DecidableEq K] {l : List α} {r : List β}
    {ka : α → K} {kb : β → K} {mk : α → Option β → γ}
    (hnd : (r.map kb).Nodup) :
    (leftJoin l r ka kb mk).length = l.length := by
  induction l with
  | nil => rfl
  | cons x xs ih =>
    unfold leftJoin
    simp only [List.flatMap_cons]
    rw [List.length_append]
    have hrec : (leftJoin xs r ka kb mk).length = xs.length := ih
    unfold leftJoin at hrec
    rw [hrec]
    have hle := filter_key_length_le_one hnd (ka x)
    cases hf : r.filter (fun y => kb y = ka x) with
    | nil => simp; omega
    | cons y ys =>
      rw [hf] at hle
      simp only [List.length_cons] at hle
      have : ys = [] := List.length_eq_zero.mp (by omega)
      subst this
      simp
      omega

theorem leftJoin_eq_map [DecidableEq K] {l : List α} {r : List β}
    {ka : α → K} {kb : β → K} {mk : α → Option β → γ}
    (hnd : (r.map kb).Nodup) (hcov : ∀ x ∈ l, ka x ∈ r.map kb) :
    leftJoin l r ka kb mk =
      l.map (fun x => mk x ((r.filter (fun y => kb y = ka x)).head?)) := by
  induction l with
  | nil => rfl
  | cons x xs ih =>
    unfold leftJoin
    simp only [List.flatMap_cons, List.map_cons]
    have h1 := filter_key_length_eq_one hnd (hcov x (List.mem_cons_self _ _))
    cases hf : r.filter (fun y => kb y = ka x) with
    | nil => rw [hf] at h1; exact absurd h1 (by simp)
    | cons y ys =>
      rw [hf] at h1
      simp only [List.length_cons] at h1
      have : ys = [] := List.length_eq_zero.mp (by omega)
      subst this
      have hrec := ih (fun a ha => hcov a (List.mem_cons_of_mem _ ha))
      unfold leftJoin at hrec
      rw [hrec]
      simp

theorem optMap_length {f : α → Option β} :
    ∀ {l : List α} {l2 : List β}, optMap f l = some l2 → l2.length = l.length := by
  intro l
  induction l with
  | nil => intro l2 h; simp only [optMap, Option.some.injEq] at h; simp [← h]
  | cons x xs ih =>
    intro l2 h
    unfold optMap at h
    cases hx : f x with
    | none => rw [hx] at h; exact absurd h (by simp)
    | some y =>
      rw [hx] at h
      cases hxs : optMap f xs with
      | none => rw [hxs] at h; exact absurd h (by simp)
      | some ys =>
        rw [hxs] at h
        simp only [Option.some.injEq] at h
        subst h
        simp [ih hxs]

theorem optMap_mem {f : α → Option β} :
    ∀ {l : List α} {l2 : List β}, optMap f l = some l2 →
      ∀ b ∈ l2, ∃ a ∈ l, f a = some b := by
  intro l
  induction l with
  | nil =>
    intro l2 h
    simp only [optMap, Option.some.injEq] at h
    simp [← h]
  | cons x xs ih =>
    intro l2 h b hb
    unfold optMap at h
    cases hx : f x with
    | none => rw [hx] at h; exact absurd h (by simp)
    | some y =>
      rw [hx] at h
      cases hxs : optMap f xs with
      | none => rw [hxs] at h; exact absurd h (by simp)
      | some ys =>
        rw [hxs] at h
        simp only [Option.some.injEq] at h
        subst h
        rcases List.mem_cons.mp hb with h1 | h2
        · exact ⟨x, List.mem_cons_self _ _, h1 ▸ hx⟩
        · obtain ⟨a, ha, hfa⟩ := ih hxs b h2
          exact ⟨a, List.mem_cons_of_mem _ ha, hfa⟩

theorem optMap_forward {f : α → Option β} :
    ∀ {l : List α} {l2 : List β}, optMap f l = some l2 →
      ∀ a ∈ l, ∃ b ∈ l2, f a = some b := by
  intro l
  induction l with
  | nil => intro l2 _ a ha; exact absurd ha (by simp)
  | cons x xs ih =>
    intro l2 h a ha
    unfold optMap at h
    cases hx : f x with
    | none => rw [hx] at h; exact absurd h (by simp)
    | some y =>
      rw [hx] at h
      cases hxs : optMap f xs with
      | none => rw [hxs] at h; exact absurd h (by simp)
      | some ys =>
        rw [hxs] at h
        simp only [Option.some.injEq] at h
        subst h
        rcases List.mem_cons.mp ha with h1 | h2
        · exact ⟨y, List.mem_cons_self _ _, h1 ▸ hx⟩
        · obtain ⟨b, hb, hfb⟩ := ih hxs a h2
          exact ⟨b, List.mem_cons_of_mem _ hb, hfb⟩

theorem dateKey_inj {a b : Date} (ha : a.Valid) (hb : b.Valid)
    (h : dateKey a = dateKey b) : a = b := by
  obtain ⟨ya, ma, da⟩ := a
  obtain ⟨yb, mb, db⟩ := b
  simp only [Date.Valid] at ha hb
  simp only [dateKey] at h
  simp only [Date.mk.injEq]
  omega

theorem sortDates_perm (l : List Date) : List.Perm (sortDates l) l :=
  List.perm_insertionSort dateLe l

theorem sortDates_sorted (l : List Date) : (sortDates l).Sorted dateLe :=
  List.sorted_insertionSort dateLe l

end Lemmas

/-! ## Load-phase structure lemmas -/

section LoadLemmas

theorem map_withKeysFrom_comp {α β : Type} (g : α → β) :
    ∀ (n : Nat) (l : List α), (withKeysFrom n l).map (fun p => g p.2) = l.map g := by
  intro n l
  induction l generalizing n with
  | nil => rfl
  | cons x xs ih => simp [withKeysFrom, ih]

theorem map_attr_withKeysFrom {α β γ : Type} (mk : Nat × α → β) (g : β → γ)
    (g2 : α → γ) (hcomp : ∀ p : Nat × α, g (mk p) = g2 p.2) (n : Nat)
    (l : List α) : ((withKeysFrom n l).map mk).map g = l.map g2 := by
  rw [List.map_map]
  calc (withKeysFrom n l).map (g ∘ mk)
      = (withKeysFrom n l).map (fun p => g2 p.2) :=
        List.map_congr_left (fun p _ => hcomp p)
    _ = l.map g2 := map_withKeysFrom_comp g2 n l

theorem map_key_withKeysFrom {α β : Type} (mk : Nat × α → β) (g : β → Nat)
    (hcomp : ∀ p : Nat × α, g (mk p) = p.1) (n : Nat) (l : List α) :
    ((withKeysFrom n l).map mk).map g = (withKeysFrom n l).map Prod.fst := by
  rw [List.map_map]
  exact List.map_congr_left (fun p _ => hcomp p)

theorem mem_leftJoin_of_cover {α β γ K : Type} [DecidableEq K]
    {l : List α} {r : List β} {ka : α → K} {kb : β → K} {mk : α → Option β → γ}
    (hcov : ∀ x ∈ l, ka x ∈ r.map kb) {g : γ} (hg : g ∈ leftJoin l r ka kb mk) :
    ∃ x ∈ l, ∃ y ∈ r, kb y = ka x ∧ g = mk x (some y) := by
  induction l with
  | nil => exact absurd hg (by simp [leftJoin])
  | cons x xs ih =>
    unfold leftJoin at hg
    rw [List.flatMap_cons] at hg
    rcases List.mem_append.mp hg with h1 | h2
    · obtain ⟨y0, hy0, hky0⟩ := List.mem_map.mp (hcov x (List.mem_cons_self _ _))
      have hy0f : y0 ∈ r.filter (fun y => kb y = ka x) :=
        List.mem_filter_of_mem hy0 (by simpa using hky0)
      cases hf : r.filter (fun y => kb y = ka x) with
      | nil => rw [hf] at hy0f; exact absurd hy0f (by simp)
      | cons y1 ys =>
        rw [hf] at h1
        obtain ⟨y2, hy2, hgy2⟩ := List.mem_map.mp h1
        have hy2f : y2 ∈ r.filter (fun y => kb y = ka x) := hf ▸ hy2
        obtain ⟨hy2r, hy2k⟩ := List.mem_filter.mp hy2f
        exact ⟨x, List.mem_cons_self _ _, y2, hy2r, by simpa using hy2k, hgy2.symm⟩
    · obtain ⟨x2, hx2, y2, hy2, hk2, hg2⟩ :=
        ih (fun a ha => hcov a (List.mem_cons_of_mem _ ha)) h2
      exact ⟨x2, List.mem_cons_of_mem _ hx2, y2, hy2, hk2, hg2⟩

theorem keyRow_inv {r : ERecord} {x : ERecord × Nat × Nat}
    (h : keyRow r = some x) :
    x.1 = r ∧ ∃ d1 d2, r.order_date = some (DCell.date d1) ∧
      r.ship_date = some (DCell.date d2) ∧
      x.2.1 = dateKey d1 ∧ x.2.2 = dateKey d2 := by
  unfold keyRow at h
  cases h1 : r.order_date with
  | none => simp [h1, dcellToKey] at h
  | some c1 =>
    cases c1 with
    | text s => simp [h1, dcellToKey] at h
    | date d1 =>
      cases h2 : r.ship_date with
      | none => simp [h1, h2, dcellToKey] at h
      | some c2 =>
        cases c2 with
        | text s => simp [h1, h2, dcellToKey] at h
        | date d2 =>
          simp only [h1, h2, dcellToKey, Option.some.injEq] at h
          subst h
          exact ⟨rfl, d1, d2, rfl, rfl, rfl, rfl⟩

theorem load_dim_customer_inv {df : List ERecord} {dimc : List CustomerDimRow}
    (h : load_dim_customer df = some dimc) :
    ∃ dated, dimc = (withKeysFrom 1 (dedupBy (fun r => r.customer_id) df)).map
      (customerDimRowOf dated) := by
  unfold load_dim_customer at h
  cases h1 : optMap (fun r =>
      ((r.order_date.bind dcellAsDate).map (fun d => (r.customer_id, d)))) df with
  | none => rw [h1] at h; simp at h
  | some dated =>
    rw [h1] at h
    simp only [Option.some.injEq] at h
    exact ⟨dated, h.symm⟩

theorem load_dim_customer_ids {df : List ERecord} {dimc : List CustomerDimRow}
    (h : load_dim_customer df = some dimc) :
    dimc.map (fun c => c.customer_id) =
      (dedupBy (fun r => r.customer_id) df).map (fun r => r.customer_id) ∧
    dimc.map (fun c => c.customer_key) =
      (withKeysFrom 1 (dedupBy (fun r => r.customer_id) df)).map Prod.fst := by
  obtain ⟨dated, hd⟩ := load_dim_customer_inv h
  subst hd
  constructor
  · apply map_attr_withKeysFrom
    intro p
    rfl
  · apply map_key_withKeysFrom
    intro p
    rfl

theorem load_dim_product_ids (df : List ERecord) :
    (load_dim_product df).map (fun p => p.product_id) =
      (dedupBy (fun r => r.product_id) df).map (fun r => r.product_id) ∧
    (load_dim_product df).map (fun p => p.product_key) =
      (withKeysFrom 1 (dedupBy (fun r => r.product_id) df)).map Prod.fst := by
  unfold load_dim_product
  constructor
  · apply map_attr_withKeysFrom
    intro p
    rfl
  · apply map_key_withKeysFrom
    intro p
    rfl

theorem load_dim_shipping_ids (df : List ERecord) :
    (load_dim_shipping df).map (fun p => p.ship_mode) =
      (dedupBy (fun r => r.ship_mode) df).map (fun r => r.ship_mode) ∧
    (load_dim_shipping df).map (fun p => p.shipping_key) =
      (withKeysFrom 1 (dedupBy (fun r => r.ship_mode) df)).map Prod.fst := by
  unfold load_dim_shipping
  constructor
  · apply map_attr_withKeysFrom
    intro p
    rfl
  · apply map_key_withKeysFrom
    intro p
    rfl

theorem allDates_inv {df : List ERecord} {dates : List Date}
    (h : allDates df = some dates) :
    ∃ ods sds,
      optMap dcellAsDate ((df.map (fun r => r.order_date)).filterMap id) = some ods ∧
      optMap dcellAsDate ((df.map (fun r => r.ship_date)).filterMap id) = some sds ∧
      dates = sortDates (dedupBy id (ods ++ sds)) := by
  unfold allDates at h
  cases h1 : optMap dcellAsDate ((df.map (fun r => r.order_date)).filterMap id) with
  | none => rw [h1] at h; simp at h
  | some ods =>
    cases h2 : optMap dcellAsDate ((df.map (fun r => r.ship_date)).filterMap id) with
    | none => rw [h1, h2] at h; simp at h
    | some sds =>
      rw [h1, h2] at h
      simp only [Option.some.injEq] at h
      exact ⟨ods, sds, rfl, rfl, h.symm⟩

theorem optMap_dcell_mem {cells : List (Option DCell)} {ds : List Date}
    (h : optMap dcellAsDate (cells.filterMap id) = some ds) (d : Date) :
    d ∈ ds ↔ some (DCell.date d) ∈ cells := by
  constructor
  · intro hd
    obtain ⟨c, hc, hcd⟩ := optMap_mem h d hd
    cases c with
    | date d2 =>
      simp only [dcellAsDate, Option.some.injEq] at hcd
      subst hcd
      obtain ⟨a, ha, hac⟩ := List.mem_filterMap.mp hc
      simp only [id_eq] at hac
      exact hac ▸ ha
    | text s => exact absurd hcd (by simp [dcellAsDate])
  · intro hc
    have hmem : DCell.date d ∈ cells.filterMap id :=
      List.mem_filterMap.mpr ⟨some (DCell.date d), hc, rfl⟩
    obtain ⟨b, hb, hfb⟩ := optMap_forward h (DCell.date d) hmem
    simp only [dcellAsDate, Option.some.injEq] at hfb
    exact hfb ▸ hb

theorem mem_allDates {df : List ERecord} {dates : List Date}
    (h : allDates df = some dates) (d : Date) :
    d ∈ dates ↔ ∃ r ∈ df, r.order_date = some (DCell.date d) ∨
      r.ship_date = some (DCell.date d) := by
  obtain ⟨ods, sds, h1, h2, hd⟩ := allDates_inv h
  subst hd
  rw [(sortDates_perm _).mem_iff, mem_dedupBy_id_iff, List.mem_append,
    optMap_dcell_mem h1 d, optMap_dcell_mem h2 d]
  constructor
  · rintro (hc | hc)
    · obtain ⟨a, ha, hac⟩ := List.mem_map.mp hc
      exact ⟨a, ha, Or.inl hac⟩
    · obtain ⟨a, ha, hac⟩ := List.mem_map.mp hc
      exact ⟨a, ha, Or.inr hac⟩
  · rintro ⟨r, hr, hor | hor⟩
    · exact Or.inl (List.mem_map.mpr ⟨r, hr, hor⟩)
    · exact Or.inr (List.mem_map.mpr ⟨r, hr, hor⟩)

theorem allDates_nodup {df : List ERecord} {dates : List Date}
    (h : allDates df = some dates) : dates.Nodup := by
  obtain ⟨ods, sds, h1, h2, hd⟩ := allDates_inv h
  subst hd
  exact ((sortDates_perm _).nodup_iff).mpr (dedupBy_id_nodup _)

theorem allDates_valid {df : List ERecord} {dates : List Date}
    (hvalid : ∀ r ∈ df, r.DatesValid) (h : allDates df = some dates) :
    ∀ d ∈ dates, d.Valid := by
  intro d hd
  obtain ⟨r, hr, hor⟩ := (mem_allDates h d).mp hd
  obtain ⟨hv1, hv2⟩ := hvalid r hr
  rcases hor with hc | hc
  · rw [hc] at hv1
    exact hv1
  · rw [hc] at hv2
    exact hv2

theorem allDates_keys_nodup {df : List ERecord} {dates : List Date}
    (hvalid : ∀ r ∈ df, r.DatesValid) (h : allDates df = some dates) :
    (dates.map dateKey).Nodup :=
  (allDates_nodup h).map_on (fun a ha b hb hab =>
    dateKey_inj (allDates_valid hvalid h a ha) (allDates_valid hvalid h b hb) hab)

theorem load_dim_date_inv {df : List ERecord} {rows : List DateDimRow}
    (h : load_dim_date df = some rows) :
    ∃ dates, allDates df = some dates ∧ rows = dates.map dateDimRowOf := by
  unfold load_dim_date at h
  cases h1 : allDates df with
  | none => rw [h1] at h; simp at h
  | some dates =>
    rw [h1] at h
    simp at h
    exact ⟨dates, rfl, h.symm⟩

theorem load_fact_sales_inv {df : List ERecord} {customers : List CustomerDimRow}
    {products : List ProductDimRow} {shipping : List ShippingDimRow}
    {facts : List FactRow}
    (h : load_fact_sales df customers products shipping = some facts) :
    ∃ keyed, optMap keyRow df = some keyed ∧
      facts = (factJoin3 (factJoin2 (factJoin1 keyed customers) products)
        shipping).map factProject := by
  unfold load_fact_sales at h
  cases h1 : optMap keyRow df with
  | none => rw [h1] at h; simp at h
  | some keyed =>
    rw [h1] at h
    simp only [Option.some.injEq] at h
    exact ⟨keyed, rfl, h.symm⟩

theorem load_data_ok_inv {df : List ERecord} {db : DB} {c : LoadCounts}
    (h : load_data df = (db, Except.ok c)) :
    ∃ staging dimd dimc facts,
      load_staging df = some staging ∧
      load_dim_date df = some dimd ∧
      load_dim_customer df = some dimc ∧
      load_fact_sales df dimc (load_dim_product df) (load_dim_shipping df) =
        some facts ∧
      db = { staging_raw_sales := staging, dim_date := dimd, dim_customer := dimc,
             dim_product := load_dim_product df,
             dim_shipping := load_dim_shipping df, fact_sales := facts } := by
  unfold load_data at h
  cases h1 : load_staging df with
  | none => simp only [h1, Prod.mk.injEq] at h; exact absurd h.2 (by simp)
  | some staging =>
    simp only [h1] at h
    cases h2 : load_dim_date df with
    | none => simp only [h2, Prod.mk.injEq] at h; exact absurd h.2 (by simp)
    | some dimd =>
      simp only [h2] at h
      cases h3 : load_dim_customer df with
      | none => simp only [h3, Prod.mk.injEq] at h; exact absurd h.2 (by simp)
      | some dimc =>
        simp only [h3] at h
        cases h4 : load_fact_sales df dimc (load_dim_product df)
            (load_dim_shipping df) with
        | none => simp only [h4, Prod.mk.injEq] at h; exact absurd h.2 (by simp)
        | some facts =>
          simp only [h4] at h
          refine ⟨staging, dimd, dimc, facts, rfl, rfl, rfl, h4, ?_⟩
          cases h5 : validate_load (countsOf
              { staging_raw_sales := staging, dim_date := dimd,
                dim_customer := dimc, dim_product := load_dim_product df,
                dim_shipping := load_dim_shipping df,
                fact_sales := facts }) df.length with
          | error p =>
            simp only [h5, Prod.mk.injEq] at h
            exact absurd h.2 (by simp)
          | ok counts =>
            simp only [h5, Prod.mk.injEq] at h
            exact h.1.symm

end LoadLemmas

/-! ## Claim theorems -/

/-- C1: a `validate_load` run raises a fatal error iff the fact table's row
count differs from the number of records that passed the Row Validator gate
(its `source_rows` argument, which `load_data` passes as `len(df)`); on exact
equality it returns the per-table counts, and on mismatch the error reports
both counts. -/
theorem validate_load_reconciles (counts : LoadCounts) (source_rows : Nat) :
    ((∃ e, validate_load counts source_rows = Except.error e) ↔
      counts.fact_sales ≠ source_rows) ∧
    (counts.fact_sales ≠ source_rows →
      validate_load counts source_rows =
        Except.error (source_rows, counts.fact_sales)) ∧
    (counts.fact_sales = source_rows →
      validate_load counts source_rows = Except.ok counts) := by
  unfold validate_load
  by_cases h : counts.fact_sales = source_rows
  · rw [if_neg (by simpa using h)]
    refine ⟨⟨fun ⟨e, he⟩ => absurd he (by simp), fun hne => absurd h hne⟩, ?_, ?_⟩
    · intro hne; exact absurd h hne
    · intro _; rfl
  · rw [if_pos h]
    refine ⟨⟨fun _ => h, fun _ => ⟨_, rfl⟩⟩, fun _ => rfl, fun he => absurd he h⟩

theorem validate_load_reconciles_witness :
    ((6 : Nat) ≠ 5 ∧
      validate_load ⟨5, 2, 3, 4, 1, 6⟩ 5 = Except.error (5, 6)) ∧
    ((5 : Nat) = 5 ∧
      validate_load ⟨5, 2, 3, 4, 1, 5⟩ 5 = Except.ok ⟨5, 2, 3, 4, 1, 5⟩) :=
  ⟨⟨by with_unfolding_all decide, (validate_load_reconciles ⟨5, 2, 3, 4, 1, 6⟩ 5).2.1 (by with_unfolding_all decide)⟩,
   ⟨rfl, (validate_load_reconciles ⟨5, 2, 3, 4, 1, 5⟩ 5).2.2 rfl⟩⟩

theorem filterMap_if_eq_nil_iff {l : List (String × Nat)} {mk : String × Nat → String} :
    l.filterMap (fun p => if 0 < p.2 then some (mk p) else none) = [] ↔
      ∀ p ∈ l, p.2 = 0 := by
  induction l with
  | nil => simp
  | cons x xs ih =>
    rw [List.filterMap_cons]
    by_cases hx : 0 < x.2
    · rw [if_pos hx]
      constructor
      · intro h; exact absurd h (by simp)
      · intro h; exact absurd (h x (List.mem_cons_self _ _)) (by omega)
    · rw [if_neg hx, ih]
      constructor
      · intro h p hp
        rcases List.mem_cons.mp hp with h1 | h2
        · subst h1; omega
        · exact h p h2
      · intro h p hp
        exact h p (List.mem_cons_of_mem _ hp)

theorem if_singleton_eq_nil {n : Nat} {s : String} :
    ((if 0 < n then [s] else []) = []) ↔ n = 0 := by
  split
  · simp; omega
  · simp; omega

theorem validation_errors_nil_iff (df : List ERecord) :
    validation_errors df = [] ↔ ∀ r ∈ df, ¬ fatalRowViolation r := by
  have hc : validation_errors df = [] ↔
      ((∀ p ∈ critical_null_counts df, p.2 = 0) ∧ neg_qty_count df = 0 ∧
        neg_sales_count df = 0 ∧ bad_discount_count df = 0) := by
    unfold validation_errors
    simp only [List.append_eq_nil, filterMap_if_eq_nil_iff, if_singleton_eq_nil]
    tauto
  rw [hc]
  constructor
  · rintro ⟨h1, h2, h3, h4⟩ r hr hviol
    simp only [critical_null_counts, List.forall_mem_cons] at h1
    obtain ⟨e1, e2, e3, e4, e5, e6, e7, -⟩ := h1
    have f1 := List.countP_eq_zero.mp e1 r hr
    have f2 := List.countP_eq_zero.mp e2 r hr
    have f3 := List.countP_eq_zero.mp e3 r hr
    have f4 := List.countP_eq_zero.mp e4 r hr
    have f5 := List.countP_eq_zero.mp e5 r hr
    have f6 := List.countP_eq_zero.mp e6 r hr
    have f7 := List.countP_eq_zero.mp e7 r hr
    have f8 := List.countP_eq_zero.mp h2 r hr
    have f9 := List.countP_eq_zero.mp h3 r hr
    have f10 := List.countP_eq_zero.mp h4 r hr
    rcases hviol with v | v | v | v | v | v | v | v | v | v
    · exact f1 (Option.isNone_iff_eq_none.mpr v)
    · exact f2 (Option.isNone_iff_eq_none.mpr v)
    · exact f3 (Option.isNone_iff_eq_none.mpr v)
    · exact f4 (Option.isNone_iff_eq_none.mpr v)
    · exact f5 (Option.isNone_iff_eq_none.mpr v)
    · exact f6 (Option.isNone_iff_eq_none.mpr v)
    · exact f7 (Option.isNone_iff_eq_none.mpr v)
    · exact f8 v
    · exact f9 v
    · exact f10 v
  · intro h
    refine ⟨?_, ?_, ?_, ?_⟩
    · simp only [critical_null_counts, List.forall_mem_cons]
      refine ⟨?_, ?_, ?_, ?_, ?_, ?_, ?_, by simp⟩
      all_goals refine List.countP_eq_zero.mpr (fun r hr hb => h r hr ?_)
      · exact Or.inl (Option.isNone_iff_eq_none.mp hb)
      · exact Or.inr (Or.inl (Option.isNone_iff_eq_none.mp hb))
      · exact Or.inr (Or.inr (Or.inl (Option.isNone_iff_eq_none.mp hb)))
      · exact Or.inr (Or.inr (Or.inr (Or.inl (Option.isNone_iff_eq_none.mp hb))))
      · exact Or.inr (Or.inr (Or.inr (Or.inr (Or.inl
          (Option.isNone_iff_eq_none.mp hb)))))
      · exact Or.inr (Or.inr (Or.inr (Or.inr (Or.inr (Or.inl
          (Option.isNone_iff_eq_none.mp hb))))))
      · exact Or.inr (Or.inr (Or.inr (Or.inr (Or.inr (Or.inr (Or.inl
          (Option.isNone_iff_eq_none.mp hb)))))))
    · exact List.countP_eq_zero.mpr (fun r hr hb => h r hr
        (Or.inr (Or.inr (Or.inr (Or.inr (Or.inr (Or.inr (Or.inr (Or.inl hb)))))))))
    · exact List.countP_eq_zero.mpr (fun r hr hb => h r hr
        (Or.inr (Or.inr (Or.inr (Or.inr (Or.inr (Or.inr (Or.inr (Or.inr
          (Or.inl hb))))))))))
    · exact List.countP_eq_zero.mpr (fun r hr hb => h r hr
        (Or.inr (Or.inr (Or.inr (Or.inr (Or.inr (Or.inr (Or.inr (Or.inr
          (Or.inr hb))))))))))

/-- C2: `validate_data` raises a single error aggregating all violation
messages iff at least one row violates a fatal check (null critical column,
negative quantity, negative sales, or discount outside [0, 1]; negative
delivery days alone never fails), and when the validator raises inside the
Transform phase, `load_data` is never called, so zero rows have been written
to any database table. -/
theorem validate_data_gate (df : List ERecord) (raw : List RawRecord) :
    ((∃ e, validate_data df = Except.error e) ↔ ∃ r ∈ df, fatalRowViolation r) ∧
    (∀ e, validate_data df = Except.error e → e = validation_errors df) ∧
    (∀ msgs, transform_data raw = Except.error msgs →
      (run_pipeline raw).1.staging_raw_sales = [] ∧
      (run_pipeline raw).1.dim_date = [] ∧
      (run_pipeline raw).1.dim_customer = [] ∧
      (run_pipeline raw).1.dim_product = [] ∧
      (run_pipeline raw).1.dim_shipping = [] ∧
      (run_pipeline raw).1.fact_sales = []) := by
  refine ⟨?_, ?_, ?_⟩
  · unfold validate_data
    by_cases hnil : validation_errors df = []
    · rw [if_pos hnil]
      constructor
      · rintro ⟨e, he⟩
        exact absurd he (by simp)
      · rintro ⟨r, hr, hv⟩
        exact absurd hv (((validation_errors_nil_iff df).mp hnil) r hr)
    · rw [if_neg hnil]
      constructor
      · intro _
        by_contra hno
        push_neg at hno
        exact hnil ((validation_errors_nil_iff df).mpr hno)
      · intro _
        exact ⟨validation_errors df, rfl⟩
  · intro e he
    unfold validate_data at he
    by_cases hnil : validation_errors df = []
    · rw [if_pos hnil] at he
      exact absurd he (by simp)
    · rw [if_neg hnil] at he
      simpa using he.symm
  · intro msgs hmsgs
    have hrun : run_pipeline raw =
        (DB.empty, Except.error (PipeError.validation msgs)) := by
      unfold run_pipeline
      rw [hmsgs]
    rw [hrun]
    exact ⟨rfl, rfl, rfl, rfl, rfl, rfl⟩

theorem validate_data_gate_witness :
    transform_data [badDiscountRaw] =
      Except.error ["1 rows have invalid discount values"] ∧
    ((run_pipeline [badDiscountRaw]).1.staging_raw_sales = [] ∧
      (run_pipeline [badDiscountRaw]).1.dim_date = [] ∧
      (run_pipeline [badDiscountRaw]).1.dim_customer = [] ∧
      (run_pipeline [badDiscountRaw]).1.dim_product = [] ∧
      (run_pipeline [badDiscountRaw]).1.dim_shipping = [] ∧
      (run_pipeline [badDiscountRaw]).1.fact_sales = []) :=
  ⟨by with_unfolding_all rfl,
   (validate_data_gate [] [badDiscountRaw]).2.2
     ["1 rows have invalid discount values"] (by with_unfolding_all rfl)⟩

/-- C4: the Derivation Engine computes
`profit_margin = round(profit / sales * 100, 2)` when sales is present and
nonzero, and a record with `sales = 0` gets a missing margin rather than a
divide-by-zero error; for sales = 100, profit = 20 the margin is 20.00. -/
theorem profit_margin_spec (r : NRecord) (p s : ℚ) :
    (r.profit = some p → r.sales = some s → s ≠ 0 →
      (add_derived_columns r).profit_margin = some (round2 (p / s * 100))) ∧
    (r.sales = some 0 → (add_derived_columns r).profit_margin = none) ∧
    profitMarginOf (some 20) (some 100) = some 20 := by
  refine ⟨?_, ?_, by with_unfolding_all decide⟩
  · intro hp hs hs0
    simp [add_derived_columns, profitMarginOf, hp, hs, hs0]
  · intro hs
    simp [add_derived_columns, profitMarginOf, hs]

theorem profit_margin_spec_witness :
    ((parse_raw sampleRaw1).profit = some 20 ∧
      (parse_raw sampleRaw1).sales = some 100 ∧ (100 : ℚ) ≠ 0) ∧
    (add_derived_columns (parse_raw sampleRaw1)).profit_margin =
      some (round2 (20 / 100 * 100)) :=
  ⟨⟨by with_unfolding_all decide, by with_unfolding_all decide, by with_unfolding_all decide⟩,
   (profit_margin_spec (parse_raw sampleRaw1) 20 100).1
     (by with_unfolding_all decide) (by with_unfolding_all decide) (by with_unfolding_all decide)⟩

/-- C5: after `handle_nulls` no missing value remains in any column; a
missing value in a numeric-dtype column is filled with 0 and a missing value
in any other column is filled with the text `'Unknown'`, while present values
are untouched. -/
theorem handle_nulls_fills_all (df : List Column) :
    (∀ c ∈ handle_nulls df, ∀ x ∈ c.cells, x.isSome = true) ∧
    handle_nulls df = df.map fillna ∧
    (∀ c : Column, (fillna c).cells = c.cells.map (fun x =>
      some (x.getD (if c.is_numeric then CellValue.num 0
                    else CellValue.text "Unknown")))) := by
  have hfill : ∀ c : Column, (fillna c).cells = c.cells.map (fun x =>
      some (x.getD (if c.is_numeric then CellValue.num 0
                    else CellValue.text "Unknown"))) := by
    intro c
    simp [fillna, fillValue]
  have hid : ∀ c : Column, c.cells.countP (fun x => x.isNone) = 0 → fillna c = c := by
    intro c hc
    have hall := List.countP_eq_zero.mp hc
    unfold fillna
    cases c with
    | mk isnum cells =>
      simp only [Column.mk.injEq, true_and]
      calc cells.map (fun x => some (x.getD (fillValue ⟨isnum, cells⟩)))
          = cells.map id := by
            apply List.map_congr_left
            intro x hx
            have := hall x hx
            cases x with
            | none => simp at this
            | some v => rfl
        _ = cells := List.map_id cells
  refine ⟨?_, ?_, hfill⟩
  · intro c hc x hx
    unfold handle_nulls at hc
    obtain ⟨c0, _, hc0⟩ := List.mem_map.mp hc
    by_cases hz : 0 < c0.cells.countP (fun y => y.isNone)
    · rw [if_pos hz] at hc0
      subst hc0
      rw [hfill c0] at hx
      obtain ⟨y, _, hy⟩ := List.mem_map.mp hx
      simp [← hy]
    · rw [if_neg hz] at hc0
      subst hc0
      have hz0 : c0.cells.countP (fun y => y.isNone) = 0 := by omega
      have hall := List.countP_eq_zero.mp hz0
      have := hall x hx
      cases x with
      | none => simp at this
      | some v => rfl
  · unfold handle_nulls
    apply List.map_congr_left
    intro c _
    by_cases hz : 0 < c.cells.countP (fun y => y.isNone)
    · rw [if_pos hz]
    · rw [if_neg hz]
      exact (hid c (by omega)).symm

theorem handle_nulls_fills_all_witness :
    ((⟨true, [some (CellValue.num 1), some (CellValue.num 0)]⟩ : Column) ∈
        handle_nulls sampleColumns) ∧
    (some (CellValue.num 0) ∈
      (⟨true, [some (CellValue.num 1), some (CellValue.num 0)]⟩ : Column).cells) ∧
    (some (CellValue.num 0)).isSome = true :=
  ⟨by with_unfolding_all decide, by with_unfolding_all decide,
   (handle_nulls_fills_all sampleColumns).1
     ⟨true, [some (CellValue.num 1), some (CellValue.num 0)]⟩ (by with_unfolding_all decide)
     (some (CellValue.num 0)) (by with_unfolding_all decide)⟩

/-- C7: duplicate whole rows are removed before the Derivation stage:
`remove_duplicates` yields the distinct rows of the batch (`A,B,C,A` with
distinct `A,B,C` becomes `A,B,C`, count 3), is the identity on a batch
without duplicates, and the batch the downstream stages (and the transform
output) operate on has exactly the deduplicated row count. -/
theorem remove_duplicates_dedups (raw : List RawRecord) :
    (remove_duplicates raw).Nodup ∧
    (∀ r, r ∈ remove_duplicates raw ↔ r ∈ raw) ∧
    (raw.Nodup → remove_duplicates raw = raw) ∧
    (∀ A B C : RawRecord, A ≠ B → A ≠ C → B ≠ C →
      remove_duplicates [A, B, C, A] = [A, B, C]) ∧
    (∀ df, transform_data raw = Except.ok df →
      df.length = (remove_duplicates raw).length) := by
  refine ⟨dedupBy_id_nodup raw, fun r => mem_dedupBy_id_iff,
    dedupBy_id_eq_self, ?_, ?_⟩
  · intro A B C hAB hAC hBC
    have hBA : ¬(B = A) := fun h => hAB h.symm
    have hCA : ¬(C = A) := fun h => hAC h.symm
    have hCB : ¬(C = B) := fun h => hBC h.symm
    simp [remove_duplicates, dedupBy, dedupByAux, hBA, hCA, hCB]
  · intro df h
    have h2 : (match validate_data (((fix_data_types (remove_duplicates raw)).1.map
        add_derived_columns).map handle_nulls_rec) with
      | Except.error e => (Except.error e : Except (List String) (List ERecord))
      | Except.ok _ => Except.ok (((fix_data_types (remove_duplicates raw)).1.map
          add_derived_columns).map handle_nulls_rec)) = Except.ok df := h
    cases hv : validate_data (((fix_data_types (remove_duplicates raw)).1.map
        add_derived_columns).map handle_nulls_rec) with
    | error e => rw [hv] at h2; exact absurd h2 (by simp)
    | ok b =>
      rw [hv] at h2
      simp only [Except.ok.injEq] at h2
      subst h2
      simp [fix_data_types]

theorem remove_duplicates_dedups_witness :
    (sampleRaw1 ≠ sampleRaw2 ∧ sampleRaw1 ≠ sampleRaw3 ∧ sampleRaw2 ≠ sampleRaw3) ∧
    remove_duplicates [sampleRaw1, sampleRaw2, sampleRaw3, sampleRaw1] =
      [sampleRaw1, sampleRaw2, sampleRaw3] :=
  ⟨⟨by with_unfolding_all decide, by with_unfolding_all decide, by with_unfolding_all decide⟩,
   (remove_duplicates_dedups
       [sampleRaw1, sampleRaw2, sampleRaw3, sampleRaw1]).2.2.2.1
     sampleRaw1 sampleRaw2 sampleRaw3 (by with_unfolding_all decide) (by with_unfolding_all decide) (by with_unfolding_all decide)⟩

/-- C8 (counterexample): on a batch whose ship date and sales both fail to
parse, `fix_data_types` coerces them to missing but records no per-column
failure count at all — contradicting the claim that it records and logs the
count for every converted column. -/
theorem fix_data_types_log_counterexample :
    ((fix_data_types [badParseRaw]).1.map (fun r => r.ship_date) = [none]) ∧
    ((fix_data_types [badParseRaw]).1.map (fun r => r.sales) = [none]) ∧
    (fix_data_types [badParseRaw]).2 = [] :=
  ⟨by with_unfolding_all rfl, by with_unfolding_all rfl, by with_unfolding_all rfl⟩

/-- C8 (amended): `fix_data_types` coerces parse failures to missing in every
converted column, but the only per-column failure count it records and logs is
the `order_date` null count (logged when positive); no count is recorded for
ship date, sales, profit, discount or quantity. -/
theorem fix_data_types_logs_order_date_only (df : List RawRecord) :
    (fix_data_types df).1 = df.map parse_raw ∧
    (∀ p ∈ (fix_data_types df).2, p.1 = "order_date" ∧ 0 < p.2 ∧
      p.2 = (fix_data_types df).1.countP (fun r => r.order_date.isNone)) ∧
    (0 < (fix_data_types df).1.countP (fun r => r.order_date.isNone) →
      ("order_date", (fix_data_types df).1.countP (fun r => r.order_date.isNone)) ∈
        (fix_data_types df).2) := by
  refine ⟨rfl, ?_, ?_⟩
  · intro p hp
    have h2 : p ∈ (if 0 < (df.map parse_raw).countP (fun r => r.order_date.isNone)
        then [("order_date", (df.map parse_raw).countP (fun r => r.order_date.isNone))]
        else []) := hp
    by_cases h : 0 < (df.map parse_raw).countP (fun r => r.order_date.isNone)
    · rw [if_pos h] at h2
      simp only [List.mem_singleton] at h2
      subst h2
      exact ⟨rfl, h, rfl⟩
    · rw [if_neg h] at h2
      exact absurd h2 (by simp)
  · intro hpos
    have hp2 : 0 < (df.map parse_raw).countP (fun r => r.order_date.isNone) := hpos
    show ("order_date", (df.map parse_raw).countP (fun r => r.order_date.isNone)) ∈
      (if 0 < (df.map parse_raw).countP (fun r => r.order_date.isNone)
        then [("order_date", (df.map parse_raw).countP (fun r => r.order_date.isNone))]
        else [])
    rw [if_pos hp2]
    exact List.mem_singleton_self _

theorem fix_data_types_logs_order_date_only_witness :
    (0 < (fix_data_types [badOrderDateRaw]).1.countP
        (fun r => r.order_date.isNone)) ∧
    ("order_date", (fix_data_types [badOrderDateRaw]).1.countP
        (fun r => r.order_date.isNone)) ∈ (fix_data_types [badOrderDateRaw]).2 :=
  ⟨by with_unfolding_all decide,
   (fix_data_types_logs_order_date_only [badOrderDateRaw]).2.2 (by with_unfolding_all decide)⟩

theorem allDates_sorted {df : List ERecord} {dates : List Date}
    (h : allDates df = some dates) : dates.Sorted dateLe := by
  obtain ⟨ods, sds, _, _, hd⟩ := allDates_inv h
  subst hd
  exact sortDates_sorted _

/-- C6: the date dimension contains exactly one row per distinct calendar
date appearing among the order dates and ship dates of the batch, emitted in
ascending date-key order, with integer key the YYYYMMDD encoding of the date
(2019-01-03 encodes to 20190103). -/
theorem load_dim_date_one_row_per_date (df : List ERecord)
    (hvalid : ∀ r ∈ df, r.DatesValid) (rows : List DateDimRow)
    (h : load_dim_date df = some rows) :
    (rows.map (fun x => x.date_key)).Sorted (· ≤ ·) ∧
    (rows.map (fun x => x.date_key)).Nodup ∧
    (∀ d : Date, d.Valid →
      ((∃ r ∈ df, r.order_date = some (DCell.date d) ∨
          r.ship_date = some (DCell.date d)) ↔
        dateKey d ∈ rows.map (fun x => x.date_key))) ∧
    (∀ row ∈ rows, ∃ d : Date, row = dateDimRowOf d ∧ row.date_key = dateKey d) ∧
    dateKey ⟨2019, 1, 3⟩ = 20190103 := by
  obtain ⟨dates, hall, hrows⟩ := load_dim_date_inv h
  subst hrows
  have hkeys : (dates.map dateDimRowOf).map (fun x => x.date_key) =
      dates.map dateKey := by
    rw [List.map_map]
    exact List.map_congr_left (fun d _ => rfl)
  rw [hkeys]
  refine ⟨?_, allDates_keys_nodup hvalid hall, ?_, ?_, by decide⟩
  · have hsorted := allDates_sorted hall
    exact List.Pairwise.map dateKey (fun a b hab => hab) hsorted
  · intro d hdvalid
    constructor
    · intro hex
      exact List.mem_map_of_mem dateKey ((mem_allDates hall d).mpr hex)
    · intro hmem
      obtain ⟨d2, hd2, hkd⟩ := List.mem_map.mp hmem
      have hd2d : d2 = d :=
        dateKey_inj (allDates_valid hvalid hall d2 hd2) hdvalid hkd
      exact (mem_allDates hall d).mp (hd2d ▸ hd2)
  · intro row hrow
    obtain ⟨d, hd, hrd⟩ := List.mem_map.mp hrow
    exact ⟨d, hrd.symm, by rw [← hrd]; rfl⟩

theorem load_dim_date_one_row_per_date_witness :
    (∀ r ∈ sampleDf, r.DatesValid) ∧
    load_dim_date sampleDf = some ((load_dim_date sampleDf).getD []) ∧
    dateKey ⟨2019, 1, 3⟩ = 20190103 :=
  ⟨by with_unfolding_all decide, by with_unfolding_all rfl,
   (load_dim_date_one_row_per_date sampleDf (by with_unfolding_all decide)
     ((load_dim_date sampleDf).getD []) (by with_unfolding_all rfl)).2.2.2.2⟩

theorem load_data_reconcile_inv {df : List ERecord} {s f : Nat}
    (h : (load_data df).2 = Except.error (LoadError.reconcile s f)) :
    ∃ dimc facts, load_dim_customer df = some dimc ∧
      load_fact_sales df dimc (load_dim_product df) (load_dim_shipping df) =
        some facts ∧
      facts.length ≠ df.length := by
  unfold load_data at h
  cases h1 : load_staging df with
  | none => rw [h1] at h; simp at h
  | some staging =>
    simp only [h1] at h
    cases h2 : load_dim_date df with
    | none => rw [h2] at h; simp at h
    | some dimd =>
      simp only [h2] at h
      cases h3 : load_dim_customer df with
      | none => rw [h3] at h; simp at h
      | some dimc =>
        simp only [h3] at h
        cases h4 : load_fact_sales df dimc (load_dim_product df)
            (load_dim_shipping df) with
        | none => rw [h4] at h; simp at h
        | some facts =>
          simp only [h4] at h
          refine ⟨dimc, facts, rfl, h4, ?_⟩
          cases h5 : validate_load (countsOf
              { staging_raw_sales := staging, dim_date := dimd,
                dim_customer := dimc, dim_product := load_dim_product df,
                dim_shipping := load_dim_shipping df,
                fact_sales := facts }) df.length with
          | error p =>
            unfold validate_load at h5
            by_cases hcond : facts.length ≠ df.length
            · exact hcond
            · rw [if_neg (by simpa [countsOf] using hcond)] at h5
              exact absurd h5 (by simp)
          | ok counts =>
            simp only [h5] at h
            exact absurd h (by simp)

/-- C9: for every batch reaching fact population, `load_fact_sales` produces
exactly one fact row per input record — each of its three merges is a left
join against a dimension whose join keys are unique after deduplication — and
consequently the reconciler's fact-count equality check never fails on a run
where loading completes without a database error. -/
theorem load_fact_row_conservation (df : List ERecord) :
    (∀ dimc facts, load_dim_customer df = some dimc →
      load_fact_sales df dimc (load_dim_product df) (load_dim_shipping df) =
        some facts →
      facts.length = df.length) ∧
    (∀ s f, ¬ (load_data df).2 = Except.error (LoadError.reconcile s f)) := by
  have hmain : ∀ dimc facts, load_dim_customer df = some dimc →
      load_fact_sales df dimc (load_dim_product df) (load_dim_shipping df) =
        some facts → facts.length = df.length := by
    intro dimc facts hc hf
    obtain ⟨keyed, hk, hfacts⟩ := load_fact_sales_inv hf
    subst hfacts
    have hnc : (dimc.map (fun c => c.customer_id)).Nodup := by
      rw [(load_dim_customer_ids hc).1]
      exact dedupBy_keys_nodup _ _
    have hnp : ((load_dim_product df).map (fun p => p.product_id)).Nodup := by
      rw [(load_dim_product_ids df).1]
      exact dedupBy_keys_nodup _ _
    have hns : ((load_dim_shipping df).map (fun p => p.ship_mode)).Nodup := by
      rw [(load_dim_shipping_ids df).1]
      exact dedupBy_keys_nodup _ _
    rw [List.length_map]
    unfold factJoin3
    rw [leftJoin_length hns]
    unfold factJoin2
    rw [leftJoin_length hnp]
    unfold factJoin1
    rw [leftJoin_length hnc]
    exact optMap_length hk
  refine ⟨hmain, ?_⟩
  intro s f h
  obtain ⟨dimc, facts, hc, hf, hne⟩ := load_data_reconcile_inv h
  exact hne (hmain dimc facts hc hf)

theorem load_fact_row_conservation_witness :
    load_dim_customer sampleDf = some ((load_dim_customer sampleDf).getD []) ∧
    load_fact_sales sampleDf ((load_dim_customer sampleDf).getD [])
        (load_dim_product sampleDf) (load_dim_shipping sampleDf) =
      some ((load_fact_sales sampleDf ((load_dim_customer sampleDf).getD [])
        (load_dim_product sampleDf) (load_dim_shipping sampleDf)).getD []) ∧
    ((load_fact_sales sampleDf ((load_dim_customer sampleDf).getD [])
        (load_dim_product sampleDf) (load_dim_shipping sampleDf)).getD
      []).length = sampleDf.length :=
  ⟨by with_unfolding_all rfl, by with_unfolding_all rfl,
   (load_fact_row_conservation sampleDf).1 _ _
     (by with_unfolding_all rfl) (by with_unfolding_all rfl)⟩

/-- C3: every fact row written by `load_fact_sales` carries five surrogate
keys — customer, product, shipping, order-date key, ship-date key — and each
resolves to exactly one row of the corresponding dimension table populated
earlier in the same run. -/
theorem fact_foreign_keys_resolve (df : List ERecord)
    (hvalid : ∀ r ∈ df, r.DatesValid) (db : DB) (c : LoadCounts)
    (h : load_data df = (db, Except.ok c)) :
    ∀ fr ∈ db.fact_sales,
      (∃ k, fr.customer_key = some k ∧
        (db.dim_customer.filter (fun x => x.customer_key = k)).length = 1) ∧
      (∃ k, fr.product_key = some k ∧
        (db.dim_product.filter (fun x => x.product_key = k)).length = 1) ∧
      (∃ k, fr.shipping_key = some k ∧
        (db.dim_shipping.filter (fun x => x.shipping_key = k)).length = 1) ∧
      (db.dim_date.filter (fun x => x.date_key = fr.order_date_key)).length = 1 ∧
      (db.dim_date.filter (fun x => x.date_key = fr.ship_date_key)).length = 1 := by
  obtain ⟨staging, dimd, dimc, facts, hs, hd, hc, hf, hdb⟩ := load_data_ok_inv h
  subst hdb
  intro fr hfr
  replace hfr : fr ∈ facts := hfr
  obtain ⟨keyed, hk, hfacts⟩ := load_fact_sales_inv hf
  subst hfacts
  obtain ⟨z, hz, hfrz⟩ := List.mem_map.mp hfr
  -- membership of each join key of each left row in the respective dimension
  have cov1 : ∀ x ∈ keyed, x.1.customer_id ∈
      dimc.map (fun y => y.customer_id) := by
    intro x hx
    obtain ⟨r, hr, hxr⟩ := optMap_mem hk x hx
    obtain ⟨hx1, -⟩ := keyRow_inv hxr
    rw [(load_dim_customer_ids hc).1, hx1]
    obtain ⟨b, hb, hbk⟩ :=
      @exists_key_mem_dedupBy ERecord (Option String) _
        (fun y => y.customer_id) df r hr
    exact hbk ▸ List.mem_map_of_mem (fun y => y.customer_id) hb
  have hJ1 : ∀ x ∈ factJoin1 keyed dimc, ∃ x0 ∈ keyed, ∃ yc ∈ dimc,
      x = (x0, some yc.customer_key) := by
    intro x hx
    obtain ⟨x0, hx0, yc, hyc, -, hxe⟩ := mem_leftJoin_of_cover cov1 hx
    exact ⟨x0, hx0, yc, hyc, hxe⟩
  have cov2 : ∀ x ∈ factJoin1 keyed dimc, x.1.1.product_id ∈
      (load_dim_product df).map (fun y => y.product_id) := by
    intro x hx
    obtain ⟨x0, hx0, yc, hyc, hxe⟩ := hJ1 x hx
    subst hxe
    obtain ⟨r, hr, hxr⟩ := optMap_mem hk x0 hx0
    obtain ⟨hx1, -⟩ := keyRow_inv hxr
    rw [(load_dim_product_ids df).1]
    show x0.1.product_id ∈ _
    rw [hx1]
    obtain ⟨b, hb, hbk⟩ :=
      @exists_key_mem_dedupBy ERecord (Option String) _
        (fun y => y.product_id) df r hr
    exact hbk ▸ List.mem_map_of_mem (fun y => y.product_id) hb
  have hJ2 : ∀ x ∈ factJoin2 (factJoin1 keyed dimc) (load_dim_product df),
      ∃ x1 ∈ factJoin1 keyed dimc, ∃ yp ∈ load_dim_product df,
        x = (x1, some yp.product_key) := by
    intro x hx
    obtain ⟨x1, hx1, yp, hyp, -, hxe⟩ := mem_leftJoin_of_cover cov2 hx
    exact ⟨x1, hx1, yp, hyp, hxe⟩
  have cov3 : ∀ x ∈ factJoin2 (factJoin1 keyed dimc) (load_dim_product df),
      x.1.1.1.ship_mode ∈ (load_dim_shipping df).map (fun y => y.ship_mode) := by
    intro x hx
    obtain ⟨x1, hx1, yp, hyp, hxe⟩ := hJ2 x hx
    subst hxe
    obtain ⟨x0, hx0, yc, hyc, hxe1⟩ := hJ1 x1 hx1
    subst hxe1
    obtain ⟨r, hr, hxr⟩ := optMap_mem hk x0 hx0
    obtain ⟨hx1r, -⟩ := keyRow_inv hxr
    rw [(load_dim_shipping_ids df).1]
    show x0.1.ship_mode ∈ _
    rw [hx1r]
    obtain ⟨b, hb, hbk⟩ :=
      @exists_key_mem_dedupBy ERecord (Option String) _
        (fun y => y.ship_mode) df r hr
    exact hbk ▸ List.mem_map_of_mem (fun y => y.ship_mode) hb
  -- decompose the fact row
  obtain ⟨x2, hx2, ys, hys, -, hze⟩ := mem_leftJoin_of_cover cov3 hz
  subst hze
  obtain ⟨x1, hx1, yp, hyp, hxe2⟩ := hJ2 x2 hx2
  subst hxe2
  obtain ⟨x0, hx0, yc, hyc, hxe1⟩ := hJ1 x1 hx1
  subst hxe1
  obtain ⟨r, hr, hxr⟩ := optMap_mem hk x0 hx0
  obtain ⟨hx1r, d1, d2, hod, hsd, hok, hsk⟩ := keyRow_inv hxr
  subst hfrz
  -- key-column uniqueness in each dimension
  have hnck : (dimc.map (fun y => y.customer_key)).Nodup := by
    rw [(load_dim_customer_ids hc).2]
    exact withKeysFrom_keys_nodup 1 _
  have hnpk : ((load_dim_product df).map (fun y => y.product_key)).Nodup := by
    rw [(load_dim_product_ids df).2]
    exact withKeysFrom_keys_nodup 1 _
  have hnsk : ((load_dim_shipping df).map (fun y => y.shipping_key)).Nodup := by
    rw [(load_dim_shipping_ids df).2]
    exact withKeysFrom_keys_nodup 1 _
  obtain ⟨dates, hall, hdimd⟩ := load_dim_date_inv hd
  have hdkeys : dimd.map (fun x => x.date_key) = dates.map dateKey := by
    subst hdimd
    rw [List.map_map]
    exact List.map_congr_left (fun d _ => rfl)
  have hndk : (dimd.map (fun x => x.date_key)).Nodup := by
    rw [hdkeys]
    exact allDates_keys_nodup hvalid hall
  refine ⟨⟨yc.customer_key, rfl, ?_⟩, ⟨yp.product_key, rfl, ?_⟩,
    ⟨ys.shipping_key, rfl, ?_⟩, ?_, ?_⟩
  · exact filter_key_length_eq_one hnck
      (List.mem_map_of_mem (fun y => y.customer_key) hyc)
  · exact filter_key_length_eq_one hnpk
      (List.mem_map_of_mem (fun y => y.product_key) hyp)
  · exact filter_key_length_eq_one hnsk
      (List.mem_map_of_mem (fun y => y.shipping_key) hys)
  · have hmem : (factProject (((x0, some yc.customer_key), some yp.product_key),
        some ys.shipping_key)).order_date_key ∈ dimd.map (fun x => x.date_key) := by
      rw [hdkeys]
      have hd1 : d1 ∈ dates := (mem_allDates hall d1).mpr ⟨r, hr, Or.inl (hx1r ▸ hod)⟩
      have : (factProject (((x0, some yc.customer_key), some yp.product_key),
          some ys.shipping_key)).order_date_key = dateKey d1 := hok
      rw [this]
      exact List.mem_map_of_mem dateKey hd1
    exact filter_key_length_eq_one hndk hmem
  · have hmem : (factProject (((x0, some yc.customer_key), some yp.product_key),
        some ys.shipping_key)).ship_date_key ∈ dimd.map (fun x => x.date_key) := by
      rw [hdkeys]
      have hd2 : d2 ∈ dates := (mem_allDates hall d2).mpr ⟨r, hr, Or.inr (hx1r ▸ hsd)⟩
      have : (factProject (((x0, some yc.customer_key), some yp.product_key),
          some ys.shipping_key)).ship_date_key = dateKey d2 := hsk
      rw [this]
      exact List.mem_map_of_mem dateKey hd2
    exact filter_key_length_eq_one hndk hmem

theorem fact_foreign_keys_resolve_witness :
    (∀ r ∈ sampleDf, r.DatesValid) ∧
    load_data sampleDf =
      ((load_data sampleDf).1, Except.ok ⟨3, 3, 2, 2, 2, 3⟩) ∧
    (∀ fr ∈ (load_data sampleDf).1.fact_sales,
      (∃ k, fr.customer_key = some k ∧
        ((load_data sampleDf).1.dim_customer.filter
          (fun x => x.customer_key = k)).length = 1) ∧
      (∃ k, fr.product_key = some k ∧
        ((load_data sampleDf).1.dim_product.filter
          (fun x => x.product_key = k)).length = 1) ∧
      (∃ k, fr.shipping_key = some k ∧
        ((load_data sampleDf).1.dim_shipping.filter
          (fun x => x.shipping_key = k)).length = 1) ∧
      ((load_data sampleDf).1.dim_date.filter
        (fun x => x.date_key = fr.order_date_key)).length = 1 ∧
      ((load_data sampleDf).1.dim_date.filter
        (fun x => x.date_key = fr.ship_date_key)).length = 1) :=
  ⟨by with_unfolding_all decide, by with_unfolding_all rfl,
   fact_foreign_keys_resolve sampleDf (by with_unfolding_all decide)
     (load_data sampleDf).1 ⟨3, 3, 2, 2, 2, 3⟩ (by with_unfolding_all rfl)⟩

/-- C10: the enriched record's weekend flag (`dayofweek.isin([5, 6])` in
`add_derived_columns`) and the date dimension's weekend flag
(`dayofweek >= 5` in `load_dim_date`) agree on every date, both being 1
exactly when the day of week is 5 or 6 (Saturday or Sunday, in pandas
Monday-0 numbering) and 0 otherwise. -/
theorem weekend_flags_agree (r : NRecord) (d : Date)
    (h : r.order_date = some (DCell.date d)) :
    (add_derived_columns r).is_weekend = (dateDimRowOf d).is_weekend ∧
    ((dateDimRowOf d).is_weekend = 1 ↔ (dayOfWeek d = 5 ∨ dayOfWeek d = 6)) ∧
    ((dateDimRowOf d).is_weekend = 0 ↔ ¬(dayOfWeek d = 5 ∨ dayOfWeek d = 6)) := by
  have h7 := dayOfWeek_lt_seven d
  have henr : (add_derived_columns r).is_weekend =
      if dayOfWeek d ∈ [5, 6] then 1 else 0 := by
    simp [add_derived_columns, dcellDate, h]
  have hdim : (dateDimRowOf d).is_weekend = if 5 ≤ dayOfWeek d then 1 else 0 := rfl
  rw [henr, hdim]
  have hmem : (dayOfWeek d ∈ [5, 6]) ↔ (dayOfWeek d = 5 ∨ dayOfWeek d = 6) := by
    simp
  by_cases h5 : 5 ≤ dayOfWeek d
  · have : dayOfWeek d = 5 ∨ dayOfWeek d = 6 := by omega
    rw [if_pos h5, if_pos (hmem.mpr this)]
    simp [this]
  · have : ¬(dayOfWeek d = 5 ∨ dayOfWeek d = 6) := by omega
    rw [if_neg h5, if_neg (fun hm => this (hmem.mp hm))]
    simp [this]

theorem weekend_flags_agree_witness :
    (parse_raw sampleRaw1).order_date = some (DCell.date ⟨2019, 1, 3⟩) ∧
    (add_derived_columns (parse_raw sampleRaw1)).is_weekend =
      (dateDimRowOf ⟨2019, 1, 3⟩).is_weekend :=
  ⟨by with_unfolding_all decide,
   (weekend_flags_agree (parse_raw sampleRaw1) ⟨2019, 1, 3⟩ (by with_unfolding_all decide)).1⟩

end SalesETL
